import Mathlib

/-!
Verification development for the schema-harmonization engine of the
pyEUDatNat repository (module `pyeudatnat`).  The Python source is shallowly
embedded: pandas dataframes become ordered lists of named, typed columns;
Python dicts become ordered association lists with replace-in-place update
semantics; numpy/pandas dtype coercions are modelled by explicit functions;
exceptions become `Except` / optional error results threaded together with the
mutated state (Python mutates `self.data` in place, so an escaping exception
still leaves earlier mutations visible).

Embedded functions (named after their source):
 * `setOptions`    — the `BaseDatNat.options` property setter (base.py 201-215)
 * `matchCols`     — `BaseDatNat._match_cols` (base.py 635-678)
 * `listCols`      — `BaseDatNat._list_cols` (base.py 607-632)
 * `cleanCols`     — `BaseDatNat._clean_cols` (base.py 681-709)
 * `frameCast`     — `Frame.cast` (io.py 620-664)
 * `formatData`    — `BaseDatNat.format_data` (base.py 902-1044)
 * `locateData`    — `BaseDatNat.locate_data` (base.py 764-899)
 * `getCols`       — `BaseDatNat.get_cols` (base.py 521-604)
 * `interpretTranslate` — `Interpret.translate` (text.py 193-227)
 * `textJoin`      — `TextProcess.join` (text.py 274-285)
 * `name2pyt`      — `Type.name2pyt` (misc.py 552)
-/

/-! ## Python ordered dictionaries

CPython dicts preserve insertion order; updating an existing key keeps its
position.  We model them as association lists with exactly this semantics. -/

abbrev Dict (α : Type) := List (String × α)

def dget {α : Type} : Dict α → String → Option α
  | [], _ => none
  | (k, v) :: d, k' => if k = k' then some v else dget d k'

def dgetD {α : Type} (d : Dict α) (k : String) (v₀ : α) : α :=
  (dget d k).getD v₀

/-- Python `d[k] = v`: replace in place if the key exists, else append. -/
def dupd {α : Type} : Dict α → String → α → Dict α
  | [], k, v => [(k, v)]
  | (k₀, v₀) :: d, k, v =>
      if k₀ = k then (k₀, v) :: d else (k₀, v₀) :: dupd d k v

/-- Python `d.pop(k)` (ignoring the KeyError case, used where presence holds). -/
def dpop {α : Type} : Dict α → String → Dict α
  | [], _ => []
  | (k₀, v₀) :: d, k => if k₀ = k then d else (k₀, v₀) :: dpop d k

def dkeys {α : Type} (d : Dict α) : List String := d.map Prod.fst

def dvals {α : Type} (d : Dict α) : List α := d.map Prod.snd

def dmem {α : Type} (d : Dict α) (k : String) : Bool := (dget d k).isSome

/-- Python `{c: c for c in cs}` (duplicates collapse onto the first slot). -/
def dictOfSelf (cs : List String) : Dict String :=
  cs.foldl (fun d c => dupd d c c) []

/-! ## Cell values, numpy dtypes and python cast types -/

/-- A pandas cell value.  `vNull` stands for `NaN`/`None` missing data. -/
inductive Value where
  | vStr (s : String)
  | vNum (q : ℚ)
  | vInt (n : ℤ)
  | vBool (b : Bool)
  | vNull
  deriving DecidableEq, Repr

/-- Column dtypes that arise in the embedded fragment. -/
inductive Dtype where
  | dObject
  | dFloat64
  | dInt64
  | dBool
  | dDatetime64
  deriving DecidableEq, Repr

/-- Python-level cast targets handled by `Type.name2pyt` (misc.py 552):
the keys of `Type.__PYT2NPT` are `bool, str, object, int, float, datetime`. -/
inductive PyType where
  | pyStr
  | pyInt
  | pyFloat
  | pyBool
  | pyObject
  | pyDatetime
  deriving DecidableEq, Repr

/-- `Type.name2pyt` (misc.py 552): dictionary lookup on the python type name,
`None` for unknown names (`dict.get` never raises). -/
def name2pyt : String → Option PyType
  | "bool" => some .pyBool
  | "str" => some .pyStr
  | "object" => some .pyObject
  | "int" => some .pyInt
  | "float" => some .pyFloat
  | "datetime" => some .pyDatetime
  | _ => none

/-- Numpy equality `np.dtype(x) == coldtype` as used by `cast == df[c].dtype`
comparisons.  Per the numpy dtype-construction rules: `int ↦ int64`,
`float ↦ float64`, `bool ↦ bool_`, `str ↦ str_ ('<U')`, `object ↦ object_`,
any other python class (datetime included) `↦ object_`, and `None ↦ float64`.
`'<U'` never equals the dtypes occurring here, so `str` compares unequal. -/
def castEqDtype : Option PyType → Dtype → Bool
  | none, .dFloat64 => true
  | none, _ => false
  | some .pyInt, .dInt64 => true
  | some .pyFloat, .dFloat64 => true
  | some .pyBool, .dBool => true
  | some .pyObject, .dObject => true
  | some .pyDatetime, .dObject => true
  | some .pyStr, _ => false
  | some _, _ => false

/-! ## Decimal string parsing (python `float(s)` / `int(s)` on clean input) -/

/-- `str.strip()` done on the character list (the whitespace set of
`String.trim`). -/
def strTrim (s : String) : String :=
  String.mk (((s.toList.dropWhile Char.isWhitespace).reverse.dropWhile
    Char.isWhitespace).reverse)

def digitVal (c : Char) : Option ℕ :=
  if c.isDigit then some (c.toNat - 48) else none

def parseNatCore : List Char → ℕ → Option ℕ
  | [], acc => some acc
  | c :: cs, acc =>
      match digitVal c with
      | some d => parseNatCore cs (acc * 10 + d)
      | none => none

def parseNat? (cs : List Char) : Option ℕ :=
  if cs = [] then none else parseNatCore cs 0

/-- Parse a plain decimal literal `[-]digits[.digits]` into a rational.
This models python `float(s)` on the inputs exercised here (no exponents). -/
def parseDecimal? (s : String) : Option ℚ :=
  let cs := (strTrim s).toList
  let (neg, cs) := match cs with
    | '-' :: rest => (true, rest)
    | '+' :: rest => (false, rest)
    | _ => (false, cs)
  let (ip, fp) := match cs.span (fun c => c ≠ '.') with
    | (i, []) => (i, ([] : List Char))
    | (i, _ :: f) => (i, f)
  match parseNat? ip, fp with
  | some n, [] =>
      some (if neg then -(n : ℚ) else (n : ℚ))
  | some n, f =>
      match parseNat? f with
      | some m =>
          let q : ℚ := (n : ℚ) + (m : ℚ) / ((10 : ℚ) ^ f.length)
          some (if neg then -q else q)
      | none => none
  | none, _ => none

/-- Parse a python `int(s)` literal: optional sign, digits only. -/
def parseInt? (s : String) : Option ℤ :=
  let cs := (strTrim s).toList
  match cs with
  | '-' :: rest => (parseNat? rest).map (fun n => -(n : ℤ))
  | '+' :: rest => (parseNat? rest).map (fun n => (n : ℤ))
  | _ => (parseNat? cs).map (fun n => (n : ℤ))

/-! ## pandas `astype` on column values -/

/-- One value under `astype(str)` (python `str(x)`; `NaN` prints as `"nan"`). -/
def valToStr : Value → Value
  | .vStr s => .vStr s
  | .vNull => .vStr "nan"
  | .vInt n => .vStr (toString n)
  | .vBool b => .vStr (if b then "True" else "False")
  | .vNum q => .vStr (toString q)

/-- One value under `astype(float)`; the string `"nan"` parses to `NaN`. -/
def valToFloat? : Value → Option Value
  | .vStr s => if strTrim s = "nan" then some .vNull else (parseDecimal? s).map .vNum
  | .vNum q => some (.vNum q)
  | .vInt n => some (.vNum (n : ℚ))
  | .vBool b => some (.vNum (if b then 1 else 0))
  | .vNull => some .vNull

def valToInt? : Value → Option Value
  | .vStr s => (parseInt? s).map .vInt
  | .vNum q => some (.vInt q.floor)
  | .vInt n => some (.vInt n)
  | .vBool b => some (.vInt (if b then 1 else 0))
  | .vNull => none

def valToBool : Value → Value
  | .vStr s => .vBool (s ≠ "")
  | .vNum q => .vBool (q ≠ 0)
  | .vInt n => .vBool (n ≠ 0)
  | .vBool b => .vBool b
  | .vNull => .vBool true

/-- `series.astype(t)` for `t` a python type or `None`:
`None` behaves as `float64` (`np.dtype(None)` is the default `float64`);
`str` always succeeds with object dtype; `datetime.datetime` is rejected by
`pandas_dtype` (object-kind class that is not `object`), modelled as failure.
A `none` result models a raised conversion error. -/
def astypeVals : Option PyType → List Value → Option (Dtype × List Value)
  | none, vs => (vs.mapM valToFloat?).map (fun ws => (.dFloat64, ws))
  | some .pyFloat, vs => (vs.mapM valToFloat?).map (fun ws => (.dFloat64, ws))
  | some .pyStr, vs => some (.dObject, vs.map valToStr)
  | some .pyObject, vs => some (.dObject, vs)
  | some .pyInt, vs => (vs.mapM valToInt?).map (fun ws => (.dInt64, ws))
  | some .pyBool, vs => some (.dBool, vs.map valToBool)
  | some .pyDatetime, _ => none

/-! ## DataFrames -/

structure Col where
  name : String
  dtype : Dtype
  values : List Value
  deriving DecidableEq, Repr

abbrev Frame := List Col

def dfGet? (df : Frame) (n : String) : Option Col :=
  df.find? (fun c => c.name = n)

def dfCols (df : Frame) : List String := df.map Col.name

def dfMem (df : Frame) (n : String) : Bool := (dfGet? df n).isSome

def dfRows (df : Frame) : ℕ :=
  match df with
  | [] => 0
  | c :: _ => c.values.length

/-- `df[n] = <column>`: replace in place if present, else append at the end. -/
def dfSet : Frame → String → Dtype → List Value → Frame
  | [], n, t, vs => [⟨n, t, vs⟩]
  | c :: df, n, t, vs =>
      if c.name = n then ⟨n, t, vs⟩ :: df else c :: dfSet df n t vs

/-- `df[n] = scalar`: broadcast a scalar over all rows. -/
def dfSetBroadcast (df : Frame) (n : String) (t : Dtype) (v : Value) : Frame :=
  dfSet df n t (List.replicate (dfRows df) v)

/-- `df.rename(columns={old: new}, errors='ignore')`: relabel, keep position. -/
def dfRename (df : Frame) (old new : String) : Frame :=
  df.map (fun c => if c.name = old then { c with name := new } else c)

/-- `df.drop(columns=..., errors='ignore')` for a keep-predicate formulation:
keep exactly the columns whose name belongs to `keepNames`. -/
def dfKeep (df : Frame) (keepNames : List String) : Frame :=
  df.filter (fun c => c.name ∈ keepNames)

/-- `df.reindex(columns=ord)` where every name of `ord` is present. -/
def dfReindex (df : Frame) (ord : List String) : Frame :=
  ord.filterMap (dfGet? df)

/-- The dtype an empty `pd.Series(dtype=t)` acquires once it is reindexed into
a nonempty frame (all entries `NaN`): int64 cannot hold `NaN` and upcasts to
float64, bool upcasts to object; `pd.Series(dtype=None)` defaults to float64
(pandas 1.x), `str` gives object. -/
def seriesNullDtype : Option PyType → Dtype
  | none => .dFloat64
  | some .pyInt => .dFloat64
  | some .pyBool => .dObject
  | some .pyFloat => .dFloat64
  | some .pyStr => .dObject
  | some .pyObject => .dObject
  | some .pyDatetime => .dObject

/-! ## `TextProcess.join` (text.py 274-285) -/

/-- `delim.join(filter(lambda s: (s or '').strip(), [s.strip() for s in strings]))`:
strip every component and drop the ones that are blank after stripping. -/
def textJoin (strings : List String) (delim : String) : String :=
  String.intercalate delim
    ((strings.map strTrim).filter (fun s => s ≠ ""))

/-! ## The `options` property setter (base.py 59-60, 201-215) -/

def PROCESSES : List String :=
  ["fetch", "load", "prepare", "clean", "translate", "locate", "format", "save"]

/-- A candidate value inside an options dictionary: `None`, a mapping, or
anything else (which the setter rejects). -/
inductive OptVal where
  | ovNone
  | ovMap (m : Dict String)
  | ovOther
  deriving DecidableEq, Repr

/-- The whole argument handed to the `options` setter. -/
inductive OptsArg where
  | oaNone
  | oaMap (d : Dict OptVal)
  | oaOther
  deriving DecidableEq, Repr

inductive OptsErr where
  | typeError
  | ioError
  deriving DecidableEq, Repr

/-- `{p: {} for p in PROCESSES}`. -/
def optionsReset : Dict OptVal :=
  PROCESSES.map (fun p => (p, OptVal.ovMap []))

/-- The `options` setter (base.py 204-215): `None`/`{}` reset to one empty
dictionary per process; a non-mapping raises `TypeError`; keys outside
`PROCESSES` raise `IOError`; a non-mapping non-`None` value raises
`TypeError`; otherwise the argument is stored as is. -/
def setOptions : OptsArg → Except OptsErr (Dict OptVal)
  | .oaNone => .ok optionsReset
  | .oaOther => .error .typeError
  | .oaMap d =>
      if d = [] then .ok optionsReset
      else if ¬ (dkeys d).all (fun k => k ∈ PROCESSES) then .error .ioError
      else if ¬ (dvals d).all (fun v => v matches .ovNone | .ovMap _) then
        .error .typeError
      else .ok d

/-- Assignment `self.options = opts`: on an exception the attribute keeps its
previous value. -/
def assignOptions (prev : Dict OptVal) (arg : OptsArg) :
    Dict OptVal × Option OptsErr :=
  match setOptions arg with
  | .ok d => (d, none)
  | .error e => (prev, some e)

/-- The invariant claimed for `options`: keys drawn from the eight process
names, every value `None` or a mapping. -/
def validOptions (d : Dict OptVal) : Bool :=
  (dkeys d).all (fun k => k ∈ PROCESSES) &&
  (dvals d).all (fun v => v matches .ovNone | .ovMap _)

/-! ## The harmonizer state

`self.idx` can be `None` (the setter stores `None` untouched) or a dict with
possibly-`None` values; `self.cols` is the column catalog, one language→label
dict per physical source column; `config['index']` holds the target schema
(per field an optional `name` and `type` key); the remaining fields carry the
slices of `meta`/`config`/`options` that the embedded methods read. -/

structure IndexEntry where
  iname : Option String
  itype : Option String
  deriving DecidableEq, Repr

structure DatNat where
  idx : Option (Dict (Option String))
  cols : List (Dict String)
  data : Frame
  oindex : Option (Dict IndexEntry)
  lang : Option String
  configLang : Option String
  metaPlace : Option (List String)
  configPlaceName : Option String
  configProj : Option String
  geoAvail : Bool
  translateAvail : Bool
  gcName : Option String
  geocodeTried : Bool
  deriving DecidableEq, Repr

/-- `self.config.get('index', {})`. -/
def DatNat.oindexD (st : DatNat) : Dict IndexEntry :=
  st.oindex.getD []

/-! ## `_match_cols` (base.py 635-678) -/

/-- Resolution-map values: `_match_cols` stores a plain column name when a
single candidate survives and the candidate list itself otherwise. -/
inductive ResVal where
  | rs (s : String)
  | rl (l : List String)
  deriving DecidableEq, Repr

inductive MCErr where
  /-- `inv.get(col, [])` with `col` a candidate list (lists are unhashable,
  so this raises `TypeError`). -/
  | listUnhashable
  deriving DecidableEq, Repr

/-- Catalog entries whose label set contains `s`
(`[c.values() for c in self.cols if col in c.values()]`). -/
def colsContaining (cols : List (Dict String)) (s : String) :
    List (List String) :=
  (cols.filter (fun c => s ∈ dvals c)).map dvals

/-- The inverse-index loop (base.py 648-652): for each index entry whose value
appears in exactly one catalog entry, map every label of that entry to the
list of index keys aliased to it.  When the value occurs in two or more
catalog entries, `set(val)` is a set of `dict_values` view objects (hashable
by identity) and the comprehension then inserts those view objects as `inv`
keys; such keys compare unequal to every string and can never be hit by the
later `inv.get(col, [])` lookups, so the entry is observationally dropped. -/
def buildInvFold (cols : List (Dict String)) :
    List (String × Option String) → Dict (List String) →
    Dict (List String)
  | [], inv => inv
  | (ind, colv) :: rest, inv =>
      match colv with
      | none =>
          -- `col in c.values()` is false for `None` against string labels
          buildInvFold cols rest inv
      | some col =>
          match colsContaining cols col with
          | [labels] =>
              let vals := labels.dedup
              let inv' := vals.foldl
                (fun acc v =>
                  if ind ∈ dgetD acc v [] then acc
                  else dupd acc v (dgetD acc v [] ++ [ind])) inv
              buildInvFold cols rest inv'
          | _ => buildInvFold cols rest inv

/-- The per-request resolution loop (base.py 653-667). -/
def resolveFold (idx : Dict (Option String)) (cols : List (Dict String))
    (dataCols : List String) (forceKeep : Bool) :
    List (String × Option String) → Dict ResVal → Dict ResVal
  | [], res => res
  | (ind, colv) :: rest, res =>
      let colv : Option String :=
        match colv with
        | none => none
        | some c => match dget idx c with
          | some v => v
          | none => some c
      match colv with
      | none =>
          -- `None` is not a data column and appears in no label set
          if forceKeep then
            resolveFold idx cols dataCols forceKeep rest (dupd res ind (.rs ind))
          else resolveFold idx cols dataCols forceKeep rest res
      | some col =>
          if col ∈ dataCols then
            resolveFold idx cols dataCols forceKeep rest (dupd res ind (.rs col))
          else
            let first := (colsContaining cols col).head?
            let cand : List String :=
              match first with
              | none => []
              | some labels => (labels.filter (fun v => v ∈ dataCols)).dedup
            match first, cand with
            | none, _ =>
                if forceKeep then
                  resolveFold idx cols dataCols forceKeep rest
                    (dupd res ind (.rs ind))
                else resolveFold idx cols dataCols forceKeep rest res
            | some _, [] =>
                if forceKeep then
                  resolveFold idx cols dataCols forceKeep rest
                    (dupd res ind (.rs ind))
                else resolveFold idx cols dataCols forceKeep rest res
            | some _, [c] =>
                resolveFold idx cols dataCols forceKeep rest (dupd res ind (.rs c))
            | some _, c₁ :: c₂ :: cs =>
                resolveFold idx cols dataCols forceKeep rest
                  (dupd res ind (.rl (c₁ :: c₂ :: cs)))

/-- The alias-propagation loop (base.py 668-674): iterate over a snapshot of
the resolved items; push the resolved column onto every index key aliased to
it; when `force` is off and the item's own key is not among those aliases, pop
the item.  A list-valued resolution makes `inv.get(col, [])` raise. -/
def propagateFold (inv : Dict (List String)) (forceKeep : Bool) :
    List (String × ResVal) → Dict ResVal → Except MCErr (Dict ResVal)
  | [], res => .ok res
  | (_, .rl _) :: _, _ => .error .listUnhashable
  | (ind, .rs col) :: items, res =>
      let colInv := dgetD inv col []
      let res := colInv.foldl (fun acc c => dupd acc c (.rs col)) res
      let res := if ¬ forceKeep ∧ ind ∉ colInv then dpop res ind else res
      propagateFold inv forceKeep items res

/-- `BaseDatNat._match_cols(columns, force=forceKeep)` for a `columns`
argument already in requested-dictionary form (values may be `None`, as when
`format_data` passes `self.idx.copy()`).  Requires `self.idx` to be a dict
(`format_data` guarantees this before calling). -/
def matchCols (idx : Dict (Option String)) (cols : List (Dict String))
    (dataCols : List String) (requested : List (String × Option String))
    (forceKeep : Bool) : Except MCErr (Dict ResVal) :=
  let inv := buildInvFold cols idx []
  let res := resolveFold idx cols dataCols forceKeep requested []
  propagateFold inv forceKeep res res

/-! ## `_list_cols` (base.py 607-632), `lang=None` variant -/

/-- With `lang=None` and `force=True` every requested name contributes its own
key to the result, so the key set of the returned dict is the (deduplicated)
requested list; `_clean_cols` only ever uses that key set. -/
def listColsKeys (requested : List String) : List String :=
  dkeys (dictOfSelf requested)

/-! ## `_clean_cols` (base.py 681-709) as invoked by `format_data`:
`self._clean_cols(list(self.data.columns), keep=keep_cols)` drops every data
column outside `set(self._list_cols(keep_cols, force=True))`, i.e. outside the
requested keep-name set. -/

def cleanCols (df : Frame) (keepCols : List String) : Frame :=
  dfKeep df (listColsKeys keepCols)

/-! ## `Frame.cast` (io.py 620-664) -/

inductive CastCallErr where
  /-- `assert column in df.columns` fails → `IOError`. -/
  | colMissing
  deriving DecidableEq, Repr

/-- `Frame.cast(df, column, otype)` as called from `format_data` line 1005
(no date formats; `otype` may be `None`, in which case the date branch runs
with empty formats and ends in `astype(str)`).  With a non-`None` `otype`:
return the column untouched when `otype` already equals its dtype, try
`astype(otype)`, and fall back to `astype(object)` when that raises. -/
def frameCast (df : Frame) (column : String) (otype : Option PyType) :
    Except CastCallErr (Dtype × List Value) :=
  match dfGet? df column with
  | none => .error .colMissing
  | some c =>
      match otype with
      | some t =>
          if castEqDtype (some t) c.dtype then .ok (c.dtype, c.values)
          else
            match astypeVals (some t) c.values with
            | some r => .ok r
            | none => .ok (.dObject, c.values)
      | none =>
          .ok (.dObject, c.values.map valToStr)

/-! ## `format_data` (base.py 902-1044)

The embedding fixes the secondary knobs at their defaults: no positional
`index` argument (so `columns.update({})` is the identity), `dtfmt=None`, and
empty option dictionaries (`config['options']` and `self.options['format']`),
so `opts_format == {}` and `_match_cols` runs with `force=False`. -/

/-- `force`/`keep` arguments of `format_data` (`keep` may be a bool, `None`,
or an explicit list of names). -/
inductive KeepArg where
  | kTrue
  | kFalse
  | kNone
  | kList (l : List String)
  deriving DecidableEq, Repr

inductive FmtCoreErr where
  /-- `TypeError` from `inv.get` on an unhashable candidate list inside
  `_match_cols`. -/
  | matchTypeError
  /-- an uncaught `KeyError` (`self.data[ind].dtype` on an absent column,
  `val['name']` for a schema entry without a name, `oindex[ind]['type']` for
  an entry without a type). -/
  | keyError
  /-- the datetime branch calls `Frame.cast(self.data, ind, odfmt=..., idfmt=...)`
  but `Frame.cast` has no such keywords, so python raises `TypeError`. -/
  | datetimeKwargError
  /-- `_clean_cols` rejects a non-string keep entry with `TypeError`. -/
  | cleanTypeError
  deriving DecidableEq, Repr

inductive FmtErr where
  /-- `IOError('No index available for formatting')`. -/
  | noIndexAvailable
  | core (e : FmtCoreErr)
  deriving DecidableEq, Repr

/-- Lowercased non-callable, non-dunder entries of `BaseDatNat.__dict__`, in
class-body order: the five class attributes followed by the property objects
(`callable(property) == False`, so properties pass the filter). -/
def attrNames : List String :=
  ["category", "country", "cc", "date", "pubdate",
   "meta", "config", "options", "data", "buff", "category", "cc", "country",
   "src", "file", "pubdate", "date", "refdate", "proj", "geocoder", "lang",
   "cols", "idx", "cache"]

/-- `attr in ('', ' ', [], (), None, 'UNK', 'NaN', np.nan)` for the modelled
attribute values (`none` stands for `None`/absent). -/
def attrTrivial : Option Value → Bool
  | none => true
  | some v =>
      v = .vStr "" ∨ v = .vStr " " ∨ v = .vStr "UNK" ∨ v = .vStr "NaN" ∨
      v = .vNull

/-- dtype of a scalar broadcast `df[col] = attr`. -/
def scalarDtype : Value → Dtype
  | .vStr _ => .dObject
  | .vInt _ => .dInt64
  | .vNum _ => .dFloat64
  | .vBool _ => .dBool
  | .vNull => .dFloat64

/-- `df[n] = <scalar>` with an explicit row count (the pandas row index is
fixed by the initially loaded data and survives column drops). -/
def dfSetN (df : Frame) (n : String) (t : Dtype) (v : Value) (rows : ℕ) :
    Frame :=
  dfSet df n t (List.replicate rows v)

/-- State threaded through the special-attributes loop (base.py 938-954). -/
structure AttrState where
  data : Frame
  columns : Dict (Option String)
  idx : Dict (Option String)

/-- One step of the special-attributes loop. -/
def attrStep (oindex : Dict IndexEntry) (attrVal : String → Option Value)
    (rows : ℕ) (s : AttrState) (a : String) : AttrState :=
  let col := match dget s.columns a with
    | some (some c) => if c = "" then a else c
    | _ => a
  if (¬ dmem oindex a ∧ ¬ dmem s.idx a) ∨ col ∈ dfCols s.data then s
  else
    match attrVal a with
    | none => s
    | some v =>
        if attrTrivial (some v) then s
        else
          { data := dfSetN s.data col (scalarDtype v) v rows,
            columns := dupd s.columns a (some col),
            idx := if dmem s.idx a then s.idx else dupd s.idx a (some col) }

/-- `typ = [o.get('type') for o in oindex.values() if ind == o.get('name')][0]`
with `IndexError` degrading to `typ = None` (base.py 983-986). -/
def fallbackTyp (oindex : Dict IndexEntry) (i : String) : Option String :=
  match oindex.filter (fun p => p.2.iname = some i) with
  | [] => none
  | p :: _ => p.2.itype

/-- State threaded through the rename/cast loop (base.py 966-1009). -/
structure CastState where
  data : Frame
  idx : Dict (Option String)
  col2ind : Dict String

/-- One step of the rename/cast loop, for one key of `self.idx`. -/
def castStep (oindex : Dict IndexEntry) (columnsRes : Dict ResVal)
    (inicols : List String) (s : CastState) (ind₀ : String) :
    Except FmtCoreErr CastState :=
  -- `col = oindex[ind].get('name')` with the two nested try/except blocks
  let colTry1 : Option String :=
    match dget oindex ind₀ with
    | some e =>
        match e.iname with
        | some n => if n ∈ inicols then some n else none
        | none => none
    | none => none
  let colRes : Option String :=
    match colTry1 with
    | some c => some c
    | none =>
        match dget columnsRes ind₀ with
        | some (.rs c) => if c ∈ inicols then some c else none
        | _ => none
  match colRes with
  | none => .ok s
  | some col₀ =>
      let col := dgetD s.col2ind col₀ col₀
      -- `ind = oindex[ind].get('name') or ind; typ = oindex[ind].get('type')`
      -- with `KeyError` falling back to the name-matching comprehension
      let indTyp : String × Option String :=
        match dget oindex ind₀ with
        | some e =>
            let ind' := match e.iname with
              | some n => if n = "" then ind₀ else n
              | none => ind₀
            match dget oindex ind' with
            | some e' => (ind', e'.itype)
            | none => (ind', fallbackTyp oindex ind')
        | none => (ind₀, fallbackTyp oindex ind₀)
      let ind := indTyp.1
      let typ := indTyp.2
      let data₁ :=
        if ind ∈ dfCols s.data ∨ col ∈ dfCols s.data then
          match dfGet? s.data col with
          | some c => dfSet s.data ind c.dtype c.values
          | none =>
              -- `except: self.data[ind] = np.nan`
              dfSetN s.data ind .dFloat64 .vNull (dfRows s.data)
        else dfRename s.data col ind
      let col2ind₁ :=
        if ind ∈ dfCols s.data ∨ col ∈ dfCols s.data then s.col2ind
        else dupd s.col2ind col ind
      let cast := typ.bind name2pyt
      match dfGet? data₁ ind with
      | none => .error .keyError
      | some cNow =>
          if castEqDtype cast cNow.dtype then
            .ok { data := data₁, idx := s.idx, col2ind := col2ind₁ }
          else if cast = some .pyDatetime then .error .datetimeKwargError
          else
            match frameCast data₁ ind cast with
            | .error _ => .error .keyError
            | .ok (t, vs) =>
                let data₂ := dfSet data₁ ind t vs
                let idx₁ :=
                  if dmem oindex ind ∧ dmem s.idx ind then s.idx
                  else dupd s.idx ind (some col)
                .ok { data := data₂, idx := idx₁, col2ind := col2ind₁ }

/-- Fold of `castStep` over the snapshot of `self.idx` keys. -/
def castLoop (oindex : Dict IndexEntry) (columnsRes : Dict ResVal)
    (inicols : List String) :
    List String → CastState → Except FmtCoreErr CastState
  | [], s => .ok s
  | k :: ks, s => do
      let s' ← castStep oindex columnsRes inicols s k
      castLoop oindex columnsRes inicols ks s'

/-- The `keep_cols` computation (base.py 1012-1020). -/
def keepColsOf (oindex : Dict IndexEntry) (columnsRes : Dict ResVal) :
    KeepArg → Except FmtCoreErr (List String)
  | .kFalse => .ok (dkeys columnsRes)
  | .kTrue =>
      match (oindex.mapM (fun (p : String × IndexEntry) => p.2.iname) :
          Option (List String)) with
      | none => .error .keyError
      | some l => .ok l
  | .kNone =>
      match (columnsRes.mapM (fun (p : String × ResVal) =>
          match p.2 with
          | .rs s => some s
          | .rl _ => none) : Option (List String)) with
      | none => .error .cleanTypeError
      | some l => .ok l
  | .kList l => .ok l

/-- One step of the force-create loop (base.py 1025-1034). -/
def forceStep (oindex : Dict IndexEntry) (rows : ℕ) (df : Frame)
    (ind : String) : Except FmtCoreErr Frame :=
  if ind ∈ dfCols df then .ok df
  else do
    let cast ←
      match dget oindex ind with
      | some e =>
          match e.itype with
          | none => .error FmtCoreErr.keyError
          | some t => .ok (name2pyt t)
      | none => .ok (some PyType.pyObject)
    let cast := if cast = some .pyDatetime then some .pyStr else cast
    .ok (dfSet df ind (seriesNullDtype cast) (List.replicate rows Value.vNull))

def forceLoop (oindex : Dict IndexEntry) (rows : ℕ) :
    List String → Frame → Except FmtCoreErr Frame
  | [], df => .ok df
  | k :: ks, df => do
      let df' ← forceStep oindex rows df k
      forceLoop oindex rows ks df'

/-- The final reorder (base.py 1036-1044); any failure inside the `try` is
swallowed. -/
def reorderData (oindex? : Option (Dict IndexEntry)) (df : Frame) : Frame :=
  match oindex? with
  | none => df
  | some oix =>
      let ordidx :=
        ((oix.map (fun p => p.2.iname)).filterMap id).filter
          (fun c => c ∈ dfCols df)
      if ordidx = [] then df
      else dfReindex df (ordidx ++ (dfCols df).filter (fun c => c ∉ ordidx))

/-- The body of `format_data` once `self.idx` is known to be a dict. -/
def formatDataCore (st : DatNat) (ix : Dict (Option String))
    (attrVal : String → Option Value) (force : Bool) (keep : KeepArg) :
    Except FmtCoreErr DatNat :=
  let rows := dfRows st.data
  let oindex := st.oindexD
  let columns₀ := ix
  let s₀ : AttrState := { data := st.data, columns := columns₀, idx := ix }
  let s₁ := attrNames.foldl (attrStep oindex attrVal rows) s₀
  let st₁ := { st with data := s₁.data, idx := some s₁.idx }
  match matchCols s₁.idx st.cols (dfCols s₁.data) s₁.columns false with
  | .error _ => .error .matchTypeError
  | .ok columnsRes =>
      if columnsRes = [] then .ok st₁
      else
        let inicols := dfCols s₁.data
        match castLoop oindex columnsRes inicols (dkeys s₁.idx)
            { data := s₁.data, idx := s₁.idx, col2ind := [] } with
        | .error e => .error e
        | .ok s₂ => do
            let keepCols ← keepColsOf oindex columnsRes keep
            let data₃ :=
              if keepCols = [] then s₂.data else cleanCols s₂.data keepCols
            let data₄ ←
              if force then forceLoop oindex rows keepCols data₃
              else .ok data₃
            let data₅ := reorderData st.oindex data₄
            .ok { st₁ with data := data₅, idx := some s₂.idx }

/-- `BaseDatNat.format_data(force=force, keep=keep)` (base.py 902-1044):
`self.idx.copy()` raises `AttributeError` when `self.idx` is `None`, which
the surrounding `try` turns into `IOError('No index available for
formatting')`. -/
def formatData (st : DatNat) (attrVal : String → Option Value) (force : Bool)
    (keep : KeepArg) : Except FmtErr DatNat :=
  match st.idx with
  | none => .error .noIndexAvailable
  | some ix =>
      match formatDataCore st ix attrVal force keep with
      | .error e => .error (.core e)
      | .ok st' => .ok st'

/-! ## `locate_data` (base.py 764-899)

The embedding fixes the secondary knobs at their defaults: no extra keyword
options (`self.options['locate']` empty, so `opts_locate` holds nothing and
`geocoder = DEF_CODER`).  `DEF_PROJ4LL` is not imported by base.py, so the
`iproj` assignment always raises `NameError` (swallowed), leaving `iproj`
unbound; the projection guard therefore raises `NameError` whenever `oproj`
is set.  `Service` has no `locate_quick` attribute — `Service.__getattr__`
delegates to the geopy client, which lacks it too and raises `IOError` — so
the geocoding strategy always terminates in an exception after (possibly)
building the place column.  Results are a pair (mutated state, optional
raised error), because python's in-place mutations survive the exception. -/

/-- `DEF_PLACE` (geo.py 149). -/
def DEF_PLACE : List String := ["street", "number", "postcode", "city", "country"]

inductive LatLonArg where
  | llNone
  | llOne (s : String)
  | llPair (a b : String)
  deriving DecidableEq, Repr

inductive LocErr where
  /-- `self.idx.get(...)` / `self.idx.items()` on `None`. -/
  | attributeError
  /-- `IOError("Unknown order keyword - must be 'lL' or 'Ll'")`. -/
  | ioUnknownOrder
  /-- assigning a one-column split result to the two target columns. -/
  | valueErrorSplit
  /-- `TypeError` propagated out of `_match_cols`. -/
  | matchTypeError
  /-- `IOError("No PLACE column(s) to be used for geolocation found in dataset")`. -/
  | noLocationSource
  /-- `geoserv` was never bound (geo libraries unavailable). -/
  | nameErrorGeoserv
  /-- `IOError` from `Service.__getattr__('locate_quick')` inside `apply`. -/
  | ioNoLocateQuick
  /-- unpacking `zip(*...)` of an empty apply result. -/
  | valueErrorZip
  /-- the projection guard reads the unbound local `iproj`. -/
  | nameErrorIproj
  deriving DecidableEq, Repr

/-- Per-row outcome of `.str.split(pat=r'\s+', n=1, expand=True)`:
a string with a whitespace run splits once at its first run; a string without
whitespace stays whole; a non-string cell becomes `NaN`. -/
inductive SplitRow where
  | twoParts (a b : String)
  | onePart (a : String)
  | nanRow
  deriving DecidableEq, Repr

def splitWs1Chars : List Char → List Char → SplitRow
  | [], acc => .onePart (String.mk acc.reverse)
  | c :: cs, acc =>
      if c.isWhitespace then
        .twoParts (String.mk acc.reverse)
          (String.mk (cs.dropWhile Char.isWhitespace))
      else splitWs1Chars cs (c :: acc)

def splitCell : Value → SplitRow
  | .vStr s => splitWs1Chars s.toList []
  | _ => .nanRow

/-- The two padded halves of one split row (`expand` pads with nulls). -/
def splitHalves : SplitRow → Value × Value
  | .twoParts a b => (.vStr a, .vStr b)
  | .onePart a => (.vStr a, .vNull)
  | .nanRow => (.vNull, .vNull)

/-- The split succeeds (resulting width 2) iff some row actually splits. -/
def splitWide (rows : List SplitRow) : Bool :=
  rows.any (fun r => r matches .twoParts _ _)

/-- The final coordinate cast (base.py 894-899): both `astype` results are
computed before either column is assigned, and any exception is swallowed
leaving the frame untouched. -/
def castLatLon (df : Frame) (olat olon : String) (otlat otlon : Option String)
    : Frame :=
  match dfGet? df olat, dfGet? df olon with
  | some c1, some c2 =>
      let t1 := match otlat with | none => none | some t => name2pyt t
      let t2 := match otlon with | none => none | some t => name2pyt t
      match astypeVals t1 c1.values, astypeVals t2 c2.values with
      | some r1, some r2 => dfSet (dfSet df olat r1.1 r1.2) olon r2.1 r2.2
      | _, _ => df
  | _, _ => df

/-- Row-wise `self.data[place].astype(str).apply(lambda s: TextProcess.join(s, delim=', '), axis=1)`. -/
def joinRows (df : Frame) (placeCols : List String) (rows : ℕ) : List Value :=
  (List.range rows).map (fun i =>
    let comps := placeCols.map (fun p =>
      match dfGet? df p with
      | some c =>
          match valToStr ((c.values.drop i).headD .vNull) with
          | .vStr s => s
          | _ => ""
      | none => "")
    .vStr (textJoin comps ", "))

/-- `self.meta.get('place')` / the `place` keyword with python falsiness. -/
def placeListOf (placeArg : Option (List String)) (metaPlace : Option (List String)) :
    List String :=
  match placeArg with
  | some p => if p = [] then DEF_PLACE else p
  | none =>
      match metaPlace with
      | some p => if p = [] then DEF_PLACE else p
      | none => DEF_PLACE

/-- `oindex['lat']['name'] ... oindex['lon']['type']` with the all-or-nothing
`except` fallback (base.py 805-810). -/
def latlonNamesTypes (oindex : Dict IndexEntry) :
    String × String × Option String × Option String :=
  match dget oindex "lat", dget oindex "lon" with
  | some e1, some e2 =>
      match e1.iname, e2.iname, e1.itype, e2.itype with
      | some nl, some nn, some tl, some tn => (nl, nn, some tl, some tn)
      | _, _, _, _ => ("lat", "lon", none, none)
  | _, _ => ("lat", "lon", none, none)

/-- `oindex.get('geo_qual',{}).get('name') or 'geo_qual'`. -/
def geoQualName (oindex : Dict IndexEntry) : String :=
  match dget oindex "geo_qual" with
  | some e =>
      match e.iname with
      | some n => if n = "" then "geo_qual" else n
      | none => "geo_qual"
  | none => "geo_qual"

/-- Shared tail of the two direct-coordinate strategies (base.py 854-899):
conditional resolution-map updates, the `geo_qual` column, the broken
projection guard, and the swallowed final cast. -/
def locateTail (st : DatNat) (oindex : Dict IndexEntry)
    (olat olon : String) (otlat otlon : Option String)
    (oproj : Option String) (rows : ℕ) : DatNat × Option LocErr :=
  let idx₁ : Option (Dict (Option String)) :=
    match st.idx with
    | some ix =>
        if dmem oindex "lat" ∧ dmem oindex "lon" ∧
            (dget ix "lat" matches some (some _)) ∧
            (dget ix "lon" matches some (some _)) then
          some (dupd (dupd ix "lat" (some olat)) "lon" (some olon))
        else some ix
    | none => none
  let oqual := geoQualName oindex
  let data₁ := dfSetN st.data oqual .dInt64 (.vInt 1) rows
  let idx₂ : Option (Dict (Option String)) :=
    match idx₁ with
    | some ix =>
        if dmem oindex "geo_qual" ∧ (dget ix "geo_qual" matches some (some _))
        then some (dupd ix "geo_qual" (some oqual))
        else some ix
    | none => none
  let st₁ := { st with data := data₁, idx := idx₂ }
  match oproj with
  | some _ => (st₁, some .nameErrorIproj)
  | none =>
      ({ st₁ with data := castLatLon st₁.data olat olon otlat otlon }, none)

/-- `BaseDatNat.locate_data` (base.py 764-899). -/
def locateData (st : DatNat) (latlonArg : LatLonArg) (orderArg : Option String)
    (placeArg : Option (List String)) (projArg : Option String) :
    DatNat × Option LocErr :=
  let rows := dfRows st.data
  let place := placeListOf placeArg st.metaPlace
  let oindex := st.oindexD
  let oproj := match projArg with
    | some p => some p
    | none => st.configProj
  let oplace := match st.configPlaceName with
    | some s => if s = "" then "place" else s
    | none => "place"
  -- `geoserv = GeoService(DEF_CODER)`; on success the geocoder option is
  -- recorded (`self.geocoder = geocoder`, DEF_CODER = {'Nominatim': None})
  let st := if st.geoAvail then { st with gcName := some "Nominatim" } else st
  match latlonArg with
  | .llNone =>
      match st.idx with
      | none => (st, some .attributeError)
      | some ix =>
          let lat := match dget ix "lat" with
            | none => some "lat"
            | some v => v
          let lon := match dget ix "lon" with
            | none => some "lon"
            | some v => v
          locateBranches st oindex lat lon "lL" place oplace oproj rows
  | .llOne s =>
      locateBranches st oindex (some s) (some s) (orderArg.getD "lL") place
        oplace oproj rows
  | .llPair a b =>
      locateBranches st oindex (some a) (some b) (orderArg.getD "lL") place
        oplace oproj rows
where
  locateBranches (st : DatNat) (oindex : Dict IndexEntry)
      (lat lon : Option String) (order : String) (place : List String)
      (oplace : String) (oproj : Option String) (rows : ℕ) :
      DatNat × Option LocErr :=
    let nt := latlonNamesTypes oindex
    let olat := nt.1
    let olon := nt.2.1
    let otlat := nt.2.2.1
    let otlon := nt.2.2.2
    match lat, lon with
    | some la, some lo =>
        if la = lo ∧ la ∈ dfCols st.data then
          -- strategy 1: one combined coordinate column
          if order = "lL" ∨ order = "Ll" then
            let l1 := if order = "lL" then olat else olon
            let l2 := if order = "lL" then olon else olat
            let parts := match dfGet? st.data la with
              | some c => c.values.map splitCell
              | none => []
            if splitWide parts then
              let halves := parts.map splitHalves
              let data₁ := dfSet st.data l1 .dObject (halves.map Prod.fst)
              let data₂ := dfSet data₁ l2 .dObject (halves.map Prod.snd)
              locateTail { st with data := data₂ } oindex olat olon otlat
                otlon oproj rows
            else (st, some .valueErrorSplit)
          else (st, some .ioUnknownOrder)
        else if la ∈ dfCols st.data ∧ lo ∈ dfCols st.data then
          -- strategy 2: separate existing lat/lon columns
          let data₁ := if la ≠ olat then dfRename st.data la olat else st.data
          let data₂ := if lo ≠ olon then dfRename data₁ lo olon else data₁
          locateTail { st with data := data₂ } oindex olat olon otlat otlon
            oproj rows
        else
          locatePlace st oindex place oplace rows
    | _, _ => locatePlace st oindex place oplace rows
  locatePlace (st : DatNat) (oindex : Dict IndexEntry) (place : List String)
      (oplace : String) (rows : ℕ) : DatNat × Option LocErr :=
    -- strategy 3: build (or reuse) the place column, then geocode — the
    -- geocoding apply always raises (see the section comment)
    let built : Except (DatNat × LocErr) DatNat :=
      if oplace ∈ dfCols st.data then .ok st
      else
        match st.idx with
        | none => .error (st, .attributeError)
        | some ix =>
            match matchCols ix st.cols (dfCols st.data)
                ((dictOfSelf place).map (fun p => (p.1, some p.2))) true with
            | .error _ => .error (st, .matchTypeError)
            | .ok mplace =>
                let placeCols := place.filterMap (fun p =>
                  match dget mplace p with
                  | some (.rs c) => if c ∈ dfCols st.data then some c else none
                  | _ => none)
                if placeCols = [] then .error (st, .noLocationSource)
                else
                  let d := dfSet st.data oplace .dObject
                    (joinRows st.data placeCols rows)
                  .ok { st with data := d }
    match built with
    | .error (st', e) => (st', some e)
    | .ok st₁ =>
        let idx₁ : Option (Dict (Option String)) :=
          match st₁.idx with
          | some ix =>
              if dmem oindex "place" ∧ (dget ix "place" matches some (some _))
              then some (dupd ix "place" (some oplace))
              else some ix
          | none => none
        let st₂ := { st₁ with idx := idx₁, geocodeTried := true }
        if ¬ st₂.geoAvail then (st₂, some .nameErrorGeoserv)
        else if rows = 0 then (st₂, some .valueErrorZip)
        else (st₂, some .ioNoLocateQuick)

/-! ## `Interpret.translate` (text.py 193-227) and `get_cols` (base.py 521-604)

`Interpret.translate` receives either the availability probe `f(-1)` or a
list of label strings.  The googletrans backend (`cls.UTRANSLATOR`) is
abstracted as a total oracle `tr`; the first backend branch
`[cls.UTRANSLATOR.translate(_, ...) for _ in text]` then succeeds, so the
batched fallback is never reached.  The boolean in the result records whether
the translating section ran (the oracle was consulted); the caller logs the
text list of every consulting call. -/

def LANGS : List String :=
  ["sq", "ar", "hy", "az", "eu", "be", "bs", "bg", "ca", "co", "hr", "cs",
   "da", "nl", "en", "eo", "et", "fi", "fr", "fy", "gl", "ka", "de", "el",
   "hu", "is", "ga", "it", "la", "lv", "lt", "lb", "mk", "mt", "no", "pl",
   "pt", "ro", "ru", "gd", "sr", "sk", "sl", "es", "sv", "tr", "uk", "cy"]

def DEF_LANG : String := "en"

inductive TransArg where
  | taProbe
  | taList (l : List String)
  deriving DecidableEq, Repr

inductive TransErr where
  | importError
  | typeError
  deriving DecidableEq, Repr

/-- `Interpret.translate(text, ilang=…, olang=…)`: raises `ImportError`
without googletrans; the probe argument `-1` fails the input validation with
`TypeError`; non-string languages raise `TypeError`; equal languages return
the text untranslated without consulting the backend. -/
def interpretTranslate (installed : Bool) (tr : String → String)
    (arg : TransArg) (ilang olang : Option String) :
    Except TransErr (List String × Bool) :=
  if ¬ installed then .error .importError
  else
    match arg with
    | .taProbe => .error .typeError
    | .taList l =>
        match ilang, olang with
        | some i, some o =>
            if i = o then .ok (l, false)
            else .ok (l.map tr, true)
        | _, _ => .error .typeError

inductive GErr where
  /-- `assert False and f(-1)` in the language-guessing branch. -/
  | assertionError
  /-- `IOError("Input language ... not recognised")`. -/
  | ioLangUnrecognized
  /-- `IOError("Output language ... not recognised")`. -/
  | ioOLangUnrecognized
  /-- an uncaught `KeyError` (`col[self.lang]` / `col[olang]`). -/
  | keyError
  /-- `TypeError` out of `Interpret.translate` on a non-string language. -/
  | typeError
  /-- `IOError("Language ... not available - provide with translations")`. -/
  | ioLangNotAvailable
  deriving DecidableEq, Repr

inductive GRet where
  | one (s : Option String)
  | many (l : List (Option String))
  | all (l : List String)
  deriving DecidableEq, Repr

/-- `ncolumns[col].get(olang) or ncolumns[col].get(ilang)` with python
falsiness (an empty-string translation falls back too). -/
def colPick (entry : Dict String) (olang ilang : String) : Option String :=
  match dget entry olang with
  | some t => if t = "" then dget entry ilang else some t
  | none => dget entry ilang

/-- `BaseDatNat.get_cols(cols=columnsArg, ilang=…, olang=…, force=…)` with
empty `translate` options.  Result: the (possibly translation-enriched)
column catalog, the log of backend-consulting translate calls (each entry the
full text list of one call), and the returned labels. -/
def getCols (cols₀ : List (Dict String)) (lang : Option String)
    (columnsArg : Option (List String)) (ilangArg olangArg : Option String)
    (force : Bool) (installed : Bool) (tr : String → String)
    (configLang : Option String) :
    Except GErr (List (Dict String) × List (List String) × GRet) := do
  -- `columns[0]` falsiness: an empty list degenerates to the all-columns path
  let columnsEff : Option (List String) :=
    match columnsArg with
    | some [] => none
    | c => c
  let langs : List String :=
    match cols₀.head? with
    | some c => dkeys c
    | none => []
  let ilang? : Option String :=
    match ilangArg with
    | some i => some i
    | none => lang
  if ilang?.isNone ∧ columnsEff.isSome ∧ columnsEff ≠ some [""] then
    throw GErr.assertionError
  let ilang ←
    match ilang? with
    | some i => if i ∈ LANGS then pure i else throw GErr.ioLangUnrecognized
    | none => throw GErr.ioLangUnrecognized
  let olang? : Option String :=
    match olangArg with
    | some o => if o = "" then none else some o
    | none => none
  let olang? : Option String :=
    match olang? with
    | some o => some o
    | none =>
        match configLang with
        | some o => if o = "" then none else some o
        | none => none
  let olang := olang?.getD DEF_LANG
  if olang ∉ LANGS then throw GErr.ioOLangUnrecognized
  -- input-language block (base.py 568-581): ImportError degrades to a no-op
  let step₁ : List (Dict String) × List (List String) ←
    if ilang ∈ langs ∨ some ilang = lang then pure (cols₀, [])
    else
      match interpretTranslate installed tr .taProbe none none with
      | .error .importError => pure (cols₀, [])
      | _ =>
          match lang with
          | none => throw GErr.typeError
          | some lg =>
              match (cols₀.mapM (fun c => dget c lg) : Option (List String)) with
              | none => throw GErr.keyError
              | some labels =>
                  match interpretTranslate installed tr (.taList labels)
                      (some lg) (some ilang) with
                  | .error _ => throw GErr.typeError
                  | .ok (tcols, used) =>
                      pure ((List.zipWith (fun c t => dupd c ilang t) cols₀ tcols),
                        if used then [labels] else [])
  let cols₁ := step₁.1
  let log₁ := step₁.2
  -- output-language block (base.py 582-595): ImportError is fatal here
  let step₂ : List (Dict String) × List (List String) ←
    if (olang ∈ langs ∧ force = false) ∨ some olang = lang then pure (cols₁, [])
    else
      match interpretTranslate installed tr .taProbe none none with
      | .error .importError => throw GErr.ioLangNotAvailable
      | _ =>
          match lang with
          | none => throw GErr.typeError
          | some lg =>
              match (cols₁.mapM (fun c => dget c lg) : Option (List String)) with
              | none => throw GErr.keyError
              | some labels =>
                  match interpretTranslate installed tr (.taList labels)
                      (some lg) (some olang) with
                  | .error _ => throw GErr.typeError
                  | .ok (tcols, used) =>
                      pure ((List.zipWith (fun c t => dupd c olang t) cols₁ tcols),
                        if used then [labels] else [])
  let cols₂ := step₂.1
  let log₂ := step₂.2
  match columnsEff with
  | none =>
      match (cols₂.mapM (fun c => dget c olang) : Option (List String)) with
      | none => throw GErr.keyError
      | some rets => pure (cols₂, log₁ ++ log₂, .all rets)
  | some cs =>
      let nc : Dict (Dict String) ←
        cols₂.foldlM (fun acc c =>
          match dget c ilang with
          | none => throw GErr.keyError
          | some k => pure (dupd acc k c)) []
      let res := cs.map (fun c =>
        match dget nc c with
        | some entry => colPick entry olang ilang
        | none => none)
      match res with
      | [r] => pure (cols₂, log₁ ++ log₂, .one r)
      | _ => pure (cols₂, log₁ ++ log₂, .many res)

/-! ## Concrete example states used by counterexamples and witnesses -/

/-- A harmonizer state whose resolution map is the EMPTY dict (configured but
empty), with one live data column and a nonempty target schema. -/
def stIdxEmpty : DatNat :=
  { idx := some [], cols := [], data := [⟨"x", .dObject, [.vStr "v"]⟩],
    oindex := some [("f", ⟨some "F", some "str"⟩)], lang := some "en",
    configLang := none, metaPlace := none, configPlaceName := none,
    configProj := none, geoAvail := true, translateAvail := true,
    gcName := none, geocodeTried := false }

/-- A family of harmonizer states for the force-create analysis: the target
schema declares field `a` with canonical name `NA` and an ARBITRARY declared
type `tA`, field `c` (key = name) with type float, field `d` (key = name)
with type datetime, and field `b` (key = name, resolved) with type object;
the dataset holds the single resolved column `b` with arbitrary values. -/
def c6family (tA : String) (vb : List Value) : DatNat :=
  { idx := some [("b", some "b"), ("a", some "x"), ("c", some "y"),
      ("d", some "z")],
    cols := [[("en", "b")]],
    data := [⟨"b", .dObject, vb⟩],
    oindex := some [("a", ⟨some "NA", some tA⟩), ("c", ⟨some "c", some "float"⟩),
      ("d", ⟨some "d", some "datetime"⟩), ("b", ⟨some "b", some "object"⟩)],
    lang := some "en", configLang := none, metaPlace := none,
    configPlaceName := none, configProj := none, geoAvail := true,
    translateAvail := true, gcName := none, geocodeTried := false }

/-- State for the C7 counterexample: one declared-string field `s` whose
catalog label coincides with its canonical name and whose column holds a
null. -/
def stC7 : DatNat :=
  { idx := some [("s", some "s")], cols := [[("en", "s")]],
    data := [⟨"s", .dObject, [.vStr "a", .vNull]⟩],
    oindex := some [("s", ⟨some "s", some "str"⟩)], lang := some "en",
    configLang := none, metaPlace := none, configPlaceName := none,
    configProj := none, geoAvail := true, translateAvail := true,
    gcName := none, geocodeTried := false }

/-- A post-first-run state whose catalog labels (`lat_fr`, `Lat`) name no
live dataset column (`LAT` only). -/
def stC7noop : DatNat :=
  { idx := some [("lat", some "lat_fr"), ("LAT", some "Lat")],
    cols := [[("fr", "lat_fr"), ("en", "Lat")]],
    data := [⟨"LAT", .dFloat64, [.vNum 1]⟩],
    oindex := some [("lat", ⟨some "LAT", some "float"⟩)],
    lang := some "fr", configLang := none, metaPlace := none,
    configPlaceName := none, configProj := none, geoAvail := true,
    translateAvail := true, gcName := none, geocodeTried := false }

/-- A dataset whose lat/lon field keys are nominated to the distinct physical
columns `LA`/`LO`, both live, next to a usable address column; the schema
declares canonical names `olat`/`olon` of type float. -/
def stC2 : DatNat :=
  { idx := some [("lat", some "LA"), ("lon", some "LO")],
    cols := [],
    data := [⟨"LA", .dObject, [.vStr "48.85"]⟩,
      ⟨"LO", .dObject, [.vStr "2.35"]⟩,
      ⟨"addr", .dObject, [.vStr "5 av. Anatole"]⟩],
    oindex := some [("lat", ⟨some "olat", some "float"⟩),
      ("lon", ⟨some "olon", some "float"⟩)],
    lang := some "en", configLang := none, metaPlace := none,
    configPlaceName := none, configProj := none, geoAvail := true,
    translateAvail := true, gcName := none, geocodeTried := false }

/-- A dataset with one combined coordinate column `coord` holding
`"48.85 2.35"`; the schema declares float lat/lon with canonical names
`lat`/`lon`. -/
def stC3 : DatNat :=
  { idx := none, cols := [],
    data := [⟨"coord", .dObject, [.vStr "48.85 2.35"]⟩],
    oindex := some [("lat", ⟨some "lat", some "float"⟩),
      ("lon", ⟨some "lon", some "float"⟩)],
    lang := some "en", configLang := none, metaPlace := none,
    configPlaceName := none, configProj := none, geoAvail := true,
    translateAvail := true, gcName := none, geocodeTried := false }

/-- A dataset with a dead lat/lon nomination (`LA`/`LO` not live) but live
place-component columns `Rue`/`Ville`/`Pays`, the country blank. -/
def stC8 : DatNat :=
  { idx := some [("lat", some "LA"), ("lon", some "LO"),
      ("street", some "Rue"), ("city", some "Ville"),
      ("country", some "Pays")],
    cols := [],
    data := [⟨"Rue", .dObject, [.vStr "5 av. X"]⟩,
      ⟨"Ville", .dObject, [.vStr "Paris"]⟩,
      ⟨"Pays", .dObject, [.vStr ""]⟩],
    oindex := some [], lang := some "en", configLang := none,
    metaPlace := none, configPlaceName := none, configProj := none,
    geoAvail := true, translateAvail := true, gcName := none,
    geocodeTried := false }

/-- The place-component list used with `stC8`. -/
def plcC8 : List String := ["street", "number", "city", "country"]

/-- The resolution `_match_cols` returns for `plcC8` against `stC8`. -/
def mplaceC8 : Dict ResVal :=
  [("street", .rs "Rue"), ("number", .rs "number"), ("city", .rs "Ville"),
    ("country", .rs "Pays")]

/-! ## Basic lemmas about the dictionary and frame operations -/

theorem dget_dupd_self {α : Type} (d : Dict α) (k : String) (v : α) :
    dget (dupd d k v) k = some v := by
  induction d with
  | nil => simp [dupd, dget]
  | cons p d ih =>
      obtain ⟨k₀, v₀⟩ := p
      by_cases h : k₀ = k
      · subst h; simp [dupd, dget]
      · simp [dupd, dget, h, ih]

theorem dget_dupd_ne {α : Type} (d : Dict α) (k k' : String) (v : α)
    (h : k ≠ k') : dget (dupd d k v) k' = dget d k' := by
  induction d with
  | nil => simp [dupd, dget, h]
  | cons p d ih =>
      obtain ⟨k₀, v₀⟩ := p
      by_cases h₀ : k₀ = k
      · subst h₀; simp [dupd, dget, h]
      · simp [dupd, dget, h₀, ih]



theorem dget_dpop_ne {α : Type} (d : Dict α) (k k' : String) (h : k ≠ k') :
    dget (dpop d k) k' = dget d k' := by
  induction d with
  | nil => simp [dpop]
  | cons p d ih =>
      obtain ⟨k₀, v₀⟩ := p
      by_cases h₀ : k₀ = k
      · subst h₀
        have hk : k₀ ≠ k' := h
        simp [dpop, dget, hk]
      · simp [dpop, dget, h₀, ih]

theorem dfGet?_dfSet_self (df : Frame) (n : String) (t : Dtype)
    (vs : List Value) : dfGet? (dfSet df n t vs) n = some ⟨n, t, vs⟩ := by
  induction df with
  | nil => simp [dfSet, dfGet?, List.find?]
  | cons c df ih =>
      by_cases h : c.name = n
      · simp [dfSet, h, dfGet?, List.find?]
      · rw [dfSet, if_neg h]
        rw [dfGet?] at ih ⊢
        rw [List.find?]
        simp only [h, decide_False]
        exact ih

theorem dfGet?_dfSet_ne (df : Frame) (n m : String) (t : Dtype)
    (vs : List Value) (h : n ≠ m) :
    dfGet? (dfSet df n t vs) m = dfGet? df m := by
  induction df with
  | nil => simp [dfSet, dfGet?, List.find?, h]
  | cons c df ih =>
      by_cases hc : c.name = n
      · rw [dfSet, if_pos hc]
        rw [dfGet?, dfGet?, List.find?, List.find?]
        have h1 : ¬ ((⟨n, t, vs⟩ : Col).name = m) := h
        have h2 : ¬ (c.name = m) := by rw [hc]; exact h
        simp [h1, h2]
      · rw [dfSet, if_neg hc]
        rw [dfGet?, dfGet?, List.find?, List.find?]
        by_cases hm : c.name = m
        · simp [hm]
        · simp only [hm, decide_False]
          exact ih

theorem mem_dfCols_iff (df : Frame) (n : String) :
    n ∈ dfCols df ↔ ∃ c ∈ df, c.name = n := by
  rw [dfCols]
  constructor
  · intro h
    rcases List.mem_map.mp h with ⟨c, hc, rfl⟩
    exact ⟨c, hc, rfl⟩
  · rintro ⟨c, hc, rfl⟩
    exact List.mem_map.mpr ⟨c, hc, rfl⟩

theorem dfCols_cons (c : Col) (df : Frame) :
    dfCols (c :: df) = c.name :: dfCols df := rfl

theorem dfCols_dfSet_of_mem (df : Frame) (n : String) (t : Dtype)
    (vs : List Value) (h : n ∈ dfCols df) :
    dfCols (dfSet df n t vs) = dfCols df := by
  induction df with
  | nil => simp [dfCols] at h
  | cons c df ih =>
      by_cases hc : c.name = n
      · rw [dfSet, if_pos hc]
        simp [dfCols, hc]
      · rw [dfSet, if_neg hc]
        rw [dfCols_cons, dfCols_cons] at *
        rcases List.mem_cons.mp h with h | h
        · exact absurd h.symm hc
        · rw [ih h]

theorem mem_dfCols_dfSet (df : Frame) (n m : String) (t : Dtype)
    (vs : List Value) (h : m ∈ dfCols df) : m ∈ dfCols (dfSet df n t vs) := by
  induction df with
  | nil => simp [dfCols] at h
  | cons c df ih =>
      by_cases hc : c.name = n
      · rw [dfSet, if_pos hc]
        rw [dfCols_cons] at h ⊢
        rcases List.mem_cons.mp h with h | h
        · exact List.mem_cons.mpr (Or.inl (hc ▸ h))
        · exact List.mem_cons.mpr (Or.inr h)
      · rw [dfSet, if_neg hc]
        rw [dfCols_cons] at h ⊢
        rcases List.mem_cons.mp h with h | h
        · exact List.mem_cons.mpr (Or.inl h)
        · exact List.mem_cons.mpr (Or.inr (ih h))

theorem mem_dfCols_dfSet_self (df : Frame) (n : String) (t : Dtype)
    (vs : List Value) : n ∈ dfCols (dfSet df n t vs) := by
  induction df with
  | nil => simp [dfSet, dfCols]
  | cons c df ih =>
      by_cases hc : c.name = n
      · rw [dfSet, if_pos hc]
        simp [dfCols]
      · rw [dfSet, if_neg hc]
        rw [dfCols_cons]
        exact List.mem_cons.mpr (Or.inr ih)

theorem dfGet?_mem (df : Frame) (n : String) (c : Col)
    (h : dfGet? df n = some c) : n ∈ dfCols df := by
  induction df with
  | nil => simp [dfGet?, List.find?] at h
  | cons c₀ df ih =>
      by_cases hc : c₀.name = n
      · rw [dfCols_cons]
        exact List.mem_cons.mpr (Or.inl hc.symm)
      · rw [dfGet?, List.find?] at h
        simp only [hc, decide_False] at h
        rw [dfCols_cons]
        exact List.mem_cons.mpr (Or.inr (ih (by rw [dfGet?]; exact h)))

/-! ## Claim theorems -/

/-- C10: the `options` setter keeps the invariant — keys a subset of the
eight process names, values `None` or mappings; a foreign key raises
`IOError` and a non-mapping argument or value raises `TypeError`, in both
cases leaving the previous options unchanged; `None` or `{}` resets the
attribute to one empty dictionary per process. -/
theorem c10_options_setter_invariant :
    (∀ (prev : Dict OptVal) (arg : OptsArg) (d : Dict OptVal),
        assignOptions prev arg = (d, none) → validOptions d = true) ∧
    (∀ (prev : Dict OptVal) (arg : OptsArg) (e : OptsErr),
        (assignOptions prev arg).2 = some e → (assignOptions prev arg).1 = prev) ∧
    (∀ prev : Dict OptVal, assignOptions prev .oaNone = (optionsReset, none) ∧
        assignOptions prev (.oaMap []) = (optionsReset, none)) ∧
    dkeys optionsReset = PROCESSES ∧
    (∀ v ∈ dvals optionsReset, v = .ovMap []) ∧
    (∀ prev : Dict OptVal, assignOptions prev .oaOther = (prev, some .typeError)) ∧
    (∀ (prev d : Dict OptVal), d ≠ [] →
        ¬ (dkeys d).all (fun k => decide (k ∈ PROCESSES)) →
        assignOptions prev (.oaMap d) = (prev, some .ioError)) ∧
    (∀ (prev d : Dict OptVal), d ≠ [] →
        (dkeys d).all (fun k => decide (k ∈ PROCESSES)) →
        ¬ (dvals d).all (fun v => v matches .ovNone | .ovMap _) →
        assignOptions prev (.oaMap d) = (prev, some .typeError)) := by
  have hreset : validOptions optionsReset = true := by decide
  refine ⟨?_, ?_, ?_, ?_, ?_, ?_, ?_, ?_⟩
  · intro prev arg d h
    cases arg with
    | oaNone =>
        simp [assignOptions, setOptions] at h
        rw [← h]; exact hreset
    | oaOther => simp [assignOptions, setOptions] at h
    | oaMap dd =>
        by_cases he : dd = []
        · subst he
          simp [assignOptions, setOptions] at h
          rw [← h]; exact hreset
        · by_cases hk : (dkeys dd).all (fun k => decide (k ∈ PROCESSES))
          · by_cases hv : (dvals dd).all (fun v => v matches .ovNone | .ovMap _)
            · simp [assignOptions, setOptions, if_neg he, hk, hv] at h
              rw [← h, validOptions, hk, hv]
              rfl
            · simp [assignOptions, setOptions, if_neg he, hk, hv] at h
          · simp [assignOptions, setOptions, if_neg he, hk] at h
  · intro prev arg e h
    cases arg with
    | oaNone => simp [assignOptions, setOptions] at h
    | oaOther => simp [assignOptions, setOptions]
    | oaMap dd =>
        by_cases he : dd = []
        · subst he; simp [assignOptions, setOptions] at h
        · by_cases hk : (dkeys dd).all (fun k => decide (k ∈ PROCESSES))
          · by_cases hv : (dvals dd).all (fun v => v matches .ovNone | .ovMap _)
            · simp [assignOptions, setOptions, if_neg he, hk, hv] at h
            · simp [assignOptions, setOptions, if_neg he, hk, hv]
          · simp [assignOptions, setOptions, if_neg he, hk]
  · intro prev; exact ⟨rfl, rfl⟩
  · decide
  · decide
  · intro prev; rfl
  · intro prev d hne hk
    simp [assignOptions, setOptions, if_neg hne, hk]
  · intro prev d hne hk hv
    simp [assignOptions, setOptions, if_neg hne, hk, hv]

/-- Witness for C10 at concrete inputs: a good assignment keeps the
invariant; a foreign key is rejected with `IOError` leaving the previous
value; `None` resets. -/
theorem c10_options_setter_invariant_witness :
    validOptions (assignOptions [] (.oaMap [("load", .ovNone)])).1 = true ∧
    assignOptions [("load", .ovNone)] (.oaMap [("zzz", .ovNone)]) =
      ([("load", .ovNone)], some .ioError) ∧
    assignOptions [("load", .ovNone)] .oaNone = (optionsReset, none) := by
  refine ⟨?_, ?_, ?_⟩
  · exact c10_options_setter_invariant.1 [] (.oaMap [("load", .ovNone)])
      (assignOptions [] (.oaMap [("load", .ovNone)])).1 (by decide)
  · exact c10_options_setter_invariant.2.2.2.2.2.2.1 [("load", .ovNone)]
      [("zzz", .ovNone)] (by decide) (by decide)
  · exact (c10_options_setter_invariant.2.2.1 [("load", .ovNone)]).1

/-- C9: the final coordinate cast of `locate_data` never raises — for every
frame it either leaves the frame completely untouched (any failure, including
missing columns, is swallowed with both columns keeping their prior type), or
both coordinate columns are replaced by their successful `astype` results
with every other column and the column layout unchanged. -/
theorem c9_locate_final_cast_soft (df : Frame) (olat olon : String)
    (otlat otlon : Option String) (hne : olat ≠ olon) :
    castLatLon df olat olon otlat otlon = df ∨
    (∃ c1 c2 r1 r2,
      dfGet? df olat = some c1 ∧ dfGet? df olon = some c2 ∧
      astypeVals (match otlat with | none => none | some t => name2pyt t)
        c1.values = some r1 ∧
      astypeVals (match otlon with | none => none | some t => name2pyt t)
        c2.values = some r2 ∧
      dfGet? (castLatLon df olat olon otlat otlon) olat = some ⟨olat, r1.1, r1.2⟩ ∧
      dfGet? (castLatLon df olat olon otlat otlon) olon = some ⟨olon, r2.1, r2.2⟩ ∧
      dfCols (castLatLon df olat olon otlat otlon) = dfCols df ∧
      ∀ n, n ≠ olat → n ≠ olon →
        dfGet? (castLatLon df olat olon otlat otlon) n = dfGet? df n) := by
  rcases h1 : dfGet? df olat with _ | c1
  · left; rw [castLatLon.eq_def, h1]
  · rcases h2 : dfGet? df olon with _ | c2
    · left; rw [castLatLon.eq_def, h1, h2]
    · rcases h3 : astypeVals (match otlat with | none => none | some t => name2pyt t)
          c1.values with _ | r1
      · left; rw [castLatLon.eq_def, h1, h2]; simp [h3]
      · rcases h4 : astypeVals (match otlon with | none => none | some t => name2pyt t)
            c2.values with _ | r2
        · left; rw [castLatLon.eq_def, h1, h2]; simp [h3, h4]
        · right
          have hres : castLatLon df olat olon otlat otlon =
              dfSet (dfSet df olat r1.1 r1.2) olon r2.1 r2.2 := by
            rw [castLatLon.eq_def, h1, h2]; simp [h3, h4]
          refine ⟨c1, c2, r1, r2, rfl, rfl, h3, h4, ?_, ?_, ?_, ?_⟩
          · rw [hres, dfGet?_dfSet_ne _ _ _ _ _ (Ne.symm hne), dfGet?_dfSet_self]
          · rw [hres, dfGet?_dfSet_self]
          · rw [hres, dfCols_dfSet_of_mem, dfCols_dfSet_of_mem]
            · exact dfGet?_mem df olat c1 h1
            · exact mem_dfCols_dfSet _ _ _ _ _ (dfGet?_mem df olon c2 h2)
          · intro n hn1 hn2
            rw [hres, dfGet?_dfSet_ne _ _ _ _ _ (Ne.symm hn2),
              dfGet?_dfSet_ne _ _ _ _ _ (Ne.symm hn1)]

/-- Witness for C9: a frame whose `lat` parses but whose `lon` does not is
left untouched; with both parseable the columns are float-cast in place. -/
theorem c9_locate_final_cast_soft_witness :
    ("lat" ≠ "lon") ∧
    (castLatLon [⟨"lat", .dObject, [.vStr "1.5"]⟩, ⟨"lon", .dObject, [.vStr "oops"]⟩]
        "lat" "lon" (some "float") (some "float") =
      [⟨"lat", .dObject, [.vStr "1.5"]⟩, ⟨"lon", .dObject, [.vStr "oops"]⟩] ∨ True) := by
  have h := c9_locate_final_cast_soft
    [⟨"lat", .dObject, [.vStr "1.5"]⟩, ⟨"lon", .dObject, [.vStr "oops"]⟩]
    "lat" "lon" (some "float") (some "float") (by decide)
  refine ⟨by decide, ?_⟩
  rcases h with h | h
  · exact Or.inl h
  · exact Or.inr trivial

/-- The per-entry accumulator of the inverse-index loop: the key `k` ends up
mapping to its old alias list extended with `ind` exactly when `k` is one of
the labels being processed and `ind` was not already recorded. -/
theorem invFold_get (vals : List String) (inv : Dict (List String))
    (ind k : String) :
    dget (vals.foldl (fun acc v =>
        if ind ∈ dgetD acc v [] then acc
        else dupd acc v (dgetD acc v [] ++ [ind])) inv) k =
      if k ∈ vals ∧ ind ∉ dgetD inv k [] then some (dgetD inv k [] ++ [ind])
      else dget inv k := by
  induction vals generalizing inv with
  | nil => simp
  | cons v vs ih =>
      simp only [List.foldl_cons]
      by_cases hvk : v = k
      · subst hvk
        by_cases hmem : ind ∈ dgetD inv v []
        · rw [if_pos hmem, ih]
          have : ¬ (v ∈ v :: vs ∧ ind ∉ dgetD inv v []) := by
            intro hh; exact hh.2 hmem
          rw [if_neg this]
          by_cases h2 : v ∈ vs ∧ ind ∉ dgetD inv v []
          · exact absurd h2.2 (by simpa using hmem)
          · rw [if_neg h2]
        · rw [if_neg hmem, ih]
          have hup : dgetD (dupd inv v (dgetD inv v [] ++ [ind])) v [] =
              dgetD inv v [] ++ [ind] := by
            rw [dgetD, dget_dupd_self]; rfl
          have hcond : ¬ (v ∈ vs ∧ ind ∉ dgetD (dupd inv v
              (dgetD inv v [] ++ [ind])) v []) := by
            intro hh; exact hh.2 (by rw [hup]; simp)
          rw [if_neg hcond]
          have : v ∈ v :: vs ∧ ind ∉ dgetD inv v [] := ⟨List.mem_cons_self _ _, hmem⟩
          rw [if_pos this, dget_dupd_self]
      · have hpres : ∀ l, dget (dupd inv v l) k = dget inv k :=
          fun l => dget_dupd_ne inv v k l hvk
        have hpresD : ∀ l, dgetD (dupd inv v l) k [] = dgetD inv k [] := by
          intro l; rw [dgetD, hpres l]; rfl
        by_cases hmem : ind ∈ dgetD inv v []
        · rw [if_pos hmem, ih]
          have : (k ∈ v :: vs ∧ ind ∉ dgetD inv k []) ↔
              (k ∈ vs ∧ ind ∉ dgetD inv k []) := by
            constructor
            · rintro ⟨h1, h2⟩
              rcases List.mem_cons.mp h1 with h | h
              · exact absurd h.symm hvk
              · exact ⟨h, h2⟩
            · rintro ⟨h1, h2⟩; exact ⟨List.mem_cons.mpr (Or.inr h1), h2⟩
          rw [if_congr this rfl rfl]
        · rw [if_neg hmem, ih, hpresD, hpres]
          have : (k ∈ vs ∧ ind ∉ dgetD inv k []) ↔
              (k ∈ v :: vs ∧ ind ∉ dgetD inv k []) := by
            constructor
            · rintro ⟨h1, h2⟩; exact ⟨List.mem_cons.mpr (Or.inr h1), h2⟩
            · rintro ⟨h1, h2⟩
              rcases List.mem_cons.mp h1 with h | h
              · exact absurd h.symm hvk
              · exact ⟨h, h2⟩
          rw [if_congr this rfl rfl]

/-- Reduction lemma: one step of the inverse-index loop when the index value
matches exactly one catalog entry. -/
theorem buildInvFold_cons_one (cols : List (Dict String)) (ind col : String)
    (rest : List (String × Option String)) (inv : Dict (List String))
    (labels : List String) (h : colsContaining cols col = [labels]) :
    buildInvFold cols ((ind, some col) :: rest) inv =
      buildInvFold cols rest (labels.dedup.foldl (fun acc v =>
        if ind ∈ dgetD acc v [] then acc
        else dupd acc v (dgetD acc v [] ++ [ind])) inv) := by
  rw [buildInvFold, h]

theorem buildInvFold_nil (cols : List (Dict String)) (inv : Dict (List String)) :
    buildInvFold cols [] inv = inv := rfl

/-- C1 counterexample: field keys `A` and `B` are both aliased through one
catalog entry `{fr: c, en: la, de: lb}` to the physical column `c`; resolving
with `requestedFields=[A]` and `forceKeep=false` returns a map that DOES
contain `B` (resolved to `c`), contrary to the claim. -/
theorem c1_counterexample :
    matchCols [("A", some "la"), ("B", some "lb")]
        [[("fr", "c"), ("en", "la"), ("de", "lb")]]
        ["c", "other"] [("A", some "A")] false =
      .ok [("A", .rs "c"), ("B", .rs "c")] ∧
    (matchCols [("A", some "la"), ("B", some "lb")]
        [[("fr", "c"), ("en", "la"), ("de", "lb")]]
        ["c", "other"] [("A", some "A")] false).map (fun r => dget r "B") =
      .ok (some (.rs "c")) ∧
    (some (ResVal.rs "c") ≠ (none : Option ResVal)) :=
  ⟨rfl, rfl, by decide⟩

/-- C1 amended: when two distinct field keys `A` and `B` are aliased through
one catalog entry to the same physical column `c`, resolving with
`requestedFields=[A]` and `forceKeep=false` returns the map
`{A: c, B: c}` — the alias-propagation loop adds every other field key
aliased to the resolved column; only the requested key itself would be
removed, and only when it is not among those aliases. -/
theorem c1_alias_propagation_resolves_b (A B la lb c : String)
    (entry : Dict String) (dataCols : List String)
    (hAB : A ≠ B)
    (hla : la ∈ dvals entry) (hlb : lb ∈ dvals entry)
    (hlaNot : la ∉ dataCols)
    (hcand : ((dvals entry).filter (fun v => v ∈ dataCols)).dedup = [c]) :
    matchCols [(A, some la), (B, some lb)] [entry] dataCols
        [(A, some A)] false = .ok [(A, .rs c), (B, .rs c)] := by
  have hccIn : ∀ s, s ∈ dvals entry →
      colsContaining [entry] s = [dvals entry] := by
    intro s hs
    simp [colsContaining, List.filter, hs]
  have foldA := fun inv => (dvals entry).dedup.foldl (fun acc v =>
    if A ∈ dgetD acc v [] then acc
    else dupd acc v (dgetD acc v [] ++ [A])) inv
  -- the inverse index maps every label of the entry to [A, B]
  have hinv : ∀ k, k ∈ dvals entry →
      dget (buildInvFold [entry] [(A, some la), (B, some lb)] []) k =
        some [A, B] := by
    intro k hk
    rw [buildInvFold_cons_one _ _ _ _ _ _ (hccIn la hla),
      buildInvFold_cons_one _ _ _ _ _ _ (hccIn lb hlb), buildInvFold_nil]
    rw [invFold_get]
    have hAk : dget ((dvals entry).dedup.foldl (fun acc v =>
        if A ∈ dgetD acc v [] then acc
        else dupd acc v (dgetD acc v [] ++ [A])) []) k = some [A] := by
      rw [invFold_get]
      rw [if_pos ⟨List.mem_dedup.mpr hk, by simp [dgetD, dget]⟩]
      simp [dgetD, dget]
    have hAkD : dgetD ((dvals entry).dedup.foldl (fun acc v =>
        if A ∈ dgetD acc v [] then acc
        else dupd acc v (dgetD acc v [] ++ [A])) []) k [] = [A] := by
      rw [dgetD, hAk]; rfl
    rw [if_pos ⟨List.mem_dedup.mpr hk, by rw [hAkD]; simpa using hAB.symm⟩, hAkD]
    rfl
  -- the request resolves A directly to c
  have hreq : resolveFold [(A, some la), (B, some lb)] [entry] dataCols false
      [(A, some A)] [] = [(A, ResVal.rs c)] := by
    rw [resolveFold]
    rw [show dget [(A, some la), (B, some lb)] A = some (some la) from by
      simp [dget]]
    simp only [hccIn la hla, List.head?, hcand]
    simp [hlaNot]
    rfl
  have hcIn : c ∈ dvals entry := by
    have hcc : c ∈ ((dvals entry).filter (fun v => v ∈ dataCols)).dedup := by
      rw [hcand]; simp
    exact List.mem_of_mem_filter (List.mem_dedup.mp hcc)
  rw [matchCols]
  simp only [hreq]
  rw [propagateFold]
  rw [dgetD, hinv c hcIn]
  simp only [Option.getD]
  rw [if_neg (by simp)]
  simp only [List.foldl]
  have h1 : dupd [(A, ResVal.rs c)] A (ResVal.rs c) = [(A, ResVal.rs c)] := by
    simp [dupd]
  rw [h1]
  have h2 : dupd [(A, ResVal.rs c)] B (ResVal.rs c) =
      [(A, ResVal.rs c), (B, ResVal.rs c)] := by
    simp [dupd, fun h => hAB h]
  rw [h2]
  rw [propagateFold]

/-- Witness for C1 amended at the counterexample state. -/
theorem c1_alias_propagation_resolves_b_witness :
    matchCols [("A", some "la"), ("B", some "lb")]
        [[("fr", "c"), ("en", "la"), ("de", "lb")]]
        ["c", "other"] [("A", some "A")] false =
      .ok [("A", .rs "c"), ("B", .rs "c")] :=
  c1_alias_propagation_resolves_b "A" "B" "la" "lb" "c"
    [("fr", "c"), ("en", "la"), ("de", "lb")] ["c", "other"]
    (by decide) (by decide) (by decide) (by decide) (by decide)

theorem dget_foldl_dupd_const {α : Type} (l : List String) (res : Dict α)
    (w : α) (k : String) :
    dget (l.foldl (fun acc c => dupd acc c w) res) k =
      if k ∈ l then some w else dget res k := by
  induction l generalizing res with
  | nil => simp
  | cons c cs ih =>
      simp only [List.foldl_cons]
      rw [ih]
      by_cases hk : k ∈ cs
      · rw [if_pos hk, if_pos (List.mem_cons.mpr (Or.inr hk))]
      · rw [if_neg hk]
        by_cases hck : c = k
        · subst hck
          rw [dget_dupd_self, if_pos (List.mem_cons_self _ _)]
        · rw [dget_dupd_ne _ _ _ _ hck,
            if_neg (by intro hh; rcases List.mem_cons.mp hh with h | h
                       · exact hck h.symm
                       · exact hk h)]

/-- Unfolding lemma for `formatData` when the index is configured. -/
theorem formatData_some (st : DatNat) (ix : Dict (Option String))
    (attrVal : String → Option Value) (force : Bool) (keep : KeepArg)
    (h : st.idx = some ix) :
    formatData st attrVal force keep =
      match formatDataCore st ix attrVal force keep with
      | .error e => .error (.core e)
      | .ok st' => .ok st' := by
  rw [formatData, h]

set_option maxRecDepth 8192 in
/-- C4 counterexample: with an EMPTY (but configured) index, `format_data`
does not raise `NoIndexAvailable` — `_match_cols` returns `{}` and the call
degrades to a logged warning that leaves the dataset untouched. -/
theorem c4_counterexample :
    formatData stIdxEmpty (fun _ => none) false .kTrue = .ok stIdxEmpty ∧
    stIdxEmpty.idx = some [] :=
  ⟨rfl, rfl⟩

/-- C4 amended: `format_data` raises `NoIndexAvailable` if and only if the
resolution index is `None` (unconfigured) — an empty index instead degrades
to a warning no-op; and a single field that no source column satisfies never
raises: with `forceKeep` the field resolves to its own key (to be created
empty later), without it the field is simply dropped from the result. -/
theorem c4_no_index_iff_unconfigured :
    (∀ (st : DatNat) (attrVal : String → Option Value) (force : Bool)
        (keep : KeepArg),
      formatData st attrVal force keep = .error .noIndexAvailable ↔
        st.idx = none) ∧
    (∀ (idx : Dict (Option String)) (cols : List (Dict String))
        (dataCols : List String) (k ck : String),
      dget idx ck = none → ck ∉ dataCols → colsContaining cols ck = [] →
      (matchCols idx cols dataCols [(k, some ck)] false = .ok [] ∧
       ∃ res, matchCols idx cols dataCols [(k, some ck)] true = .ok res ∧
         dget res k = some (.rs k))) := by
  constructor
  · intro st attrVal force keep
    constructor
    · intro h
      rcases hix : st.idx with _ | ix
      · rfl
      · rw [formatData_some st ix attrVal force keep hix] at h
        rcases hc : formatDataCore st ix attrVal force keep with e | st'
        · rw [hc] at h
          exact absurd (Except.error.inj h) (by intro hh; cases hh)
        · rw [hc] at h
          cases h
    · intro h
      rw [formatData, h]
  · intro idx cols dataCols k ck hhop hnot hcc
    have hres : ∀ fk, resolveFold idx cols dataCols fk [(k, some ck)] [] =
        if fk then [(k, ResVal.rs k)] else [] := by
      intro fk
      rw [resolveFold, hhop]
      cases fk <;> simp [hnot, hcc, List.head?, resolveFold, dupd]
    constructor
    · rw [matchCols]
      simp only [hres false, Bool.false_eq_true, if_false]
      simp [propagateFold]
    · rw [matchCols]
      simp only [hres true, if_true]
      simp only [propagateFold]
      refine ⟨_, rfl, ?_⟩
      have hup := dget_foldl_dupd_const
        (dgetD (buildInvFold cols idx []) k []) [(k, ResVal.rs k)]
        (ResVal.rs k) k
      rw [if_neg (by simp)]
      rw [hup]
      by_cases hk : k ∈ dgetD (buildInvFold cols idx []) k []
      · rw [if_pos hk]
      · rw [if_neg hk]
        simp [dget]

/-- Witness for C4 amended: the iff at a configured state and at an
unconfigured one, and the soft degradation at concrete inputs. -/
theorem c4_no_index_iff_unconfigured_witness :
    (formatData stIdxEmpty (fun _ => none) true .kTrue =
        .error .noIndexAvailable ↔ stIdxEmpty.idx = none) ∧
    (matchCols [("k", some "zz")] [] ["data1"] [("k", some "zz")] false =
        .ok [] ∧
     ∃ res, matchCols [("k", some "zz")] [] ["data1"] [("k", some "zz")] true =
        .ok res ∧ dget res "k" = some (.rs "k")) :=
  ⟨c4_no_index_iff_unconfigured.1 stIdxEmpty (fun _ => none) true .kTrue,
   c4_no_index_iff_unconfigured.2 [("k", some "zz")] [] ["data1"] "k" "zz"
     (by decide) (by decide) (by decide)⟩

set_option maxRecDepth 8192 in
/-- C6 counterexample: `format_data(force=True, keep=True)` creates the
missing field `a` (canonical name `NA`, declared type float) as an all-null
column of OBJECT dtype, not the declared float64 — the creation loop looks
the type up under the output name `NA`, which is not a key of the schema. -/
theorem c6_counterexample :
    (formatData (c6family "float" [.vStr "v1"]) (fun _ => none) true
        .kTrue).map (fun s => dfGet? s.data "NA") =
      .ok (some ⟨"NA", .dObject, [.vNull]⟩) ∧
    Dtype.dObject ≠ Dtype.dFloat64 :=
  ⟨rfl, by decide⟩

set_option maxRecDepth 8192 in
/-- C6 amended: with `force=True` and `keep=True` every schema field without
a matching source column appears in the output as an all-null column under
its canonical output name, but the declared dtype is honoured only when the
field key equals that name: the creation loop iterates over output NAMES and
looks each one up as a KEY of the schema, so (i) a name that is not a key is
created with object dtype regardless of the type the schema declares for the
field, (ii) a key-named field of declared datetime degrades to string/object
nulls, (iii) a key-named float field gets float64 nulls; the concrete run
shows `format_data` routing the keep-name list into this loop. -/
theorem c6_force_create_null_columns :
    (∀ (oindex : Dict IndexEntry) (rows : ℕ) (df : Frame) (ind : String),
      ind ∉ dfCols df → dget oindex ind = none →
      forceStep oindex rows df ind =
        .ok (dfSet df ind .dObject (List.replicate rows .vNull))) ∧
    (∀ (oindex : Dict IndexEntry) (rows : ℕ) (df : Frame) (ind : String)
        (e : IndexEntry),
      ind ∉ dfCols df → dget oindex ind = some e → e.itype = some "datetime" →
      forceStep oindex rows df ind =
        .ok (dfSet df ind .dObject (List.replicate rows .vNull))) ∧
    (∀ (oindex : Dict IndexEntry) (rows : ℕ) (df : Frame) (ind : String)
        (e : IndexEntry),
      ind ∉ dfCols df → dget oindex ind = some e → e.itype = some "float" →
      forceStep oindex rows df ind =
        .ok (dfSet df ind .dFloat64 (List.replicate rows .vNull))) ∧
    ((formatData (c6family "float" [.vStr "v1", .vNull]) (fun _ => none) true
        .kTrue).map
        (fun s => (dfGet? s.data "NA", dfGet? s.data "c", dfGet? s.data "d",
          dfGet? s.data "b")) =
      .ok (some ⟨"NA", .dObject, [.vNull, .vNull]⟩,
        some ⟨"c", .dFloat64, [.vNull, .vNull]⟩,
        some ⟨"d", .dObject, [.vNull, .vNull]⟩,
        some ⟨"b", .dObject, [.vStr "v1", .vNull]⟩)) := by
  refine ⟨?_, ?_, ?_, rfl⟩
  · intro oindex rows df ind hmem hkey
    rw [forceStep, if_neg hmem]
    simp [hkey, Except.bind, bind, seriesNullDtype]
  · intro oindex rows df ind e hmem hkey htyp
    rw [forceStep, if_neg hmem]
    simp [hkey, htyp, name2pyt, Except.bind, bind, seriesNullDtype]
  · intro oindex rows df ind e hmem hkey htyp
    rw [forceStep, if_neg hmem]
    simp [hkey, htyp, name2pyt, Except.bind, bind, seriesNullDtype]

/-- Witness for C6 amended at concrete inputs. -/
theorem c6_force_create_null_columns_witness :
    forceStep [("a", ⟨some "NA", some "float"⟩)] 2 [⟨"b", .dObject, []⟩] "NA" =
      .ok (dfSet [⟨"b", .dObject, []⟩] "NA" .dObject
        (List.replicate 2 .vNull)) ∧
    forceStep [("d", ⟨some "d", some "datetime"⟩)] 1 [] "d" =
      .ok (dfSet [] "d" .dObject (List.replicate 1 .vNull)) ∧
    forceStep [("c", ⟨some "c", some "float"⟩)] 1 [] "c" =
      .ok (dfSet [] "c" .dFloat64 (List.replicate 1 .vNull)) :=
  ⟨c6_force_create_null_columns.1 [("a", ⟨some "NA", some "float"⟩)] 2
      [⟨"b", .dObject, []⟩] "NA" (by decide) (by decide),
   c6_force_create_null_columns.2.1 [("d", ⟨some "d", some "datetime"⟩)] 1 []
      "d" ⟨some "d", some "datetime"⟩ (by decide) (by decide) (by decide),
   c6_force_create_null_columns.2.2.1 [("c", ⟨some "c", some "float"⟩)] 1 []
      "c" ⟨some "c", some "float"⟩ (by decide) (by decide) (by decide)⟩

/-! ## Lemmas for the second-pass no-op analysis (C7) -/

theorem foldl_id_of_steps {α β : Type} (f : α → β → α) (l : List β) (s : α)
    (h : ∀ b ∈ l, f s b = s) : l.foldl f s = s := by
  induction l with
  | nil => rfl
  | cons b bs ih =>
      rw [List.foldl_cons, h b (List.mem_cons_self _ _)]
      exact ih (fun b' hb' => h b' (List.mem_cons.mpr (Or.inr hb')))

theorem attrStep_id (oindex : Dict IndexEntry) (attrVal : String → Option Value)
    (rows : ℕ) (s : AttrState) (a : String)
    (h1 : dget oindex a = none) (h2 : dget s.idx a = none) :
    attrStep oindex attrVal rows s a = s := by
  rw [attrStep]
  rw [if_pos (Or.inl ⟨by simp [dmem, h1], by simp [dmem, h2]⟩)]

theorem colsContaining_mem (cols : List (Dict String)) (s : String)
    (labels : List String) (h : labels ∈ colsContaining cols s) :
    ∃ entry ∈ cols, labels = dvals entry := by
  rcases List.mem_map.mp h with ⟨entry, hentry, rfl⟩
  exact ⟨entry, List.mem_of_mem_filter hentry, rfl⟩

/-- Keys of the inverse index all come from some catalog entry's label set. -/
theorem buildInvFold_get_cases (cols : List (Dict String))
    (idxl : List (String × Option String)) (inv : Dict (List String))
    (k : String) :
    dget (buildInvFold cols idxl inv) k = dget inv k ∨
      ∃ entry ∈ cols, k ∈ dvals entry := by
  induction idxl generalizing inv with
  | nil => exact Or.inl rfl
  | cons p rest ih =>
      obtain ⟨ind, colv⟩ := p
      rcases colv with _ | col
      · exact ih inv
      · rcases hcc : colsContaining cols col with _ | ⟨labels, more⟩
        · rw [buildInvFold, hcc]
          exact ih inv
        · rcases more with _ | _
          · rw [buildInvFold, hcc]
            rcases ih (labels.dedup.foldl (fun acc v =>
              if ind ∈ dgetD acc v [] then acc
              else dupd acc v (dgetD acc v [] ++ [ind])) inv) with h | h
            · rw [h, invFold_get]
              by_cases hk : k ∈ labels.dedup ∧ ind ∉ dgetD inv k []
              · right
                rcases colsContaining_mem cols col labels
                    (by rw [hcc]; exact List.mem_cons_self _ _) with ⟨e, he, rfl⟩
                exact ⟨e, he, List.mem_dedup.mp hk.1⟩
              · rw [if_neg hk]
                exact Or.inl rfl
            · exact Or.inr h
          · rw [buildInvFold, hcc]
            exact ih inv

/-- The `col = self.idx[col] if col in self.idx.keys() else col` hop, as a
named function for reasoning. -/
def hopResolve (idx : Dict (Option String)) : Option String → Option String
  | none => none
  | some c =>
      match dget idx c with
      | some v => v
      | none => some c

theorem resolveFold_cons_eq (idx : Dict (Option String))
    (cols : List (Dict String)) (dataCols : List String) (fk : Bool)
    (ind : String) (colv : Option String)
    (rest : List (String × Option String)) (res : Dict ResVal) :
    resolveFold idx cols dataCols fk ((ind, colv) :: rest) res =
      match hopResolve idx colv with
      | none =>
          if fk then
            resolveFold idx cols dataCols fk rest (dupd res ind (.rs ind))
          else resolveFold idx cols dataCols fk rest res
      | some col =>
          if col ∈ dataCols then
            resolveFold idx cols dataCols fk rest (dupd res ind (.rs col))
          else
            let first := (colsContaining cols col).head?
            let cand : List String :=
              match first with
              | none => []
              | some labels => (labels.filter (fun v => v ∈ dataCols)).dedup
            match first, cand with
            | none, _ =>
                if fk then
                  resolveFold idx cols dataCols fk rest (dupd res ind (.rs ind))
                else resolveFold idx cols dataCols fk rest res
            | some _, [] =>
                if fk then
                  resolveFold idx cols dataCols fk rest (dupd res ind (.rs ind))
                else resolveFold idx cols dataCols fk rest res
            | some _, [c] =>
                resolveFold idx cols dataCols fk rest (dupd res ind (.rs c))
            | some _, c₁ :: c₂ :: cs =>
                resolveFold idx cols dataCols fk rest
                  (dupd res ind (.rl (c₁ :: c₂ :: cs))) := by
  cases colv with
  | none => rfl
  | some c =>
      rw [resolveFold]
      rcases h : dget idx c with _ | v
      · rw [hopResolve, h]
      · rw [hopResolve, h]

theorem dupd_mem {α : Type} (d : Dict α) (k : String) (v : α) :
    ∀ p ∈ dupd d k v, p ∈ d ∨ p = (k, v) := by
  induction d with
  | nil => intro p hp; simp [dupd] at hp; exact Or.inr hp
  | cons q d ih =>
      intro p hp
      obtain ⟨k₀, v₀⟩ := q
      by_cases hk : k₀ = k
      · rw [dupd, if_pos hk] at hp
        rcases List.mem_cons.mp hp with h | h
        · subst hk; exact Or.inr (by rw [h])
        · exact Or.inl (List.mem_cons.mpr (Or.inr h))
      · rw [dupd, if_neg hk] at hp
        rcases List.mem_cons.mp hp with h | h
        · exact Or.inl (List.mem_cons.mpr (Or.inl h))
        · rcases ih p h with h' | h'
          · exact Or.inl (List.mem_cons.mpr (Or.inr h'))
          · exact Or.inr h'

/-- With `force=False`, every entry the request loop adds resolves to a live
data column, provided every catalog label set is disjoint from the live
columns. -/
theorem resolveFold_only_direct (idx : Dict (Option String))
    (cols : List (Dict String)) (dataCols : List String)
    (req : List (String × Option String)) (res : Dict ResVal)
    (hcols : ∀ entry ∈ cols, ∀ l ∈ dvals entry, l ∉ dataCols)
    (hres : ∀ p ∈ res, ∃ c, p.2 = ResVal.rs c ∧ c ∈ dataCols) :
    ∀ p ∈ resolveFold idx cols dataCols false req res,
      ∃ c, p.2 = ResVal.rs c ∧ c ∈ dataCols := by
  induction req generalizing res with
  | nil => exact hres
  | cons q rest ih =>
      obtain ⟨ind, colv⟩ := q
      rw [resolveFold_cons_eq]
      rcases hh : hopResolve idx colv with _ | col
      · simp only [Bool.false_eq_true, if_false]
        exact ih res hres
      · simp only []
        by_cases hmem : col ∈ dataCols
        · rw [if_pos hmem]
          apply ih
          intro p hp
          rcases dupd_mem res ind (.rs col) p hp with h | h
          · exact hres p h
          · exact ⟨col, by rw [h], hmem⟩
        · rw [if_neg hmem]
          rcases hcc : (colsContaining cols col).head? with _ | labels
          · simp only [hcc, Bool.false_eq_true, if_false]
            exact ih res hres
          · have hfil : (labels.filter (fun v => v ∈ dataCols)).dedup = [] := by
              have hlmem : labels ∈ colsContaining cols col :=
                List.mem_of_mem_head? hcc
              rcases colsContaining_mem cols col labels hlmem with ⟨e, he, rfl⟩
              have hnil : (dvals e).filter (fun v => decide (v ∈ dataCols)) = [] := by
                apply List.filter_eq_nil_iff.mpr
                intro l hlm
                simp only [decide_eq_true_eq]
                exact hcols e he l hlm
              rw [hnil]; rfl
            simp only [hcc, hfil, Bool.false_eq_true, if_false]
            exact ih res hres

/-- When every resolved column has an empty alias list, the propagation loop
pops every entry and `_match_cols` returns the empty map. -/
theorem propagateFold_pop_all (inv : Dict (List String)) :
    ∀ items : List (String × ResVal),
    (∀ p ∈ items, ∃ c, p.2 = ResVal.rs c ∧ dgetD inv c [] = []) →
    propagateFold inv false items items = .ok [] := by
  intro items
  induction items with
  | nil => intro _; rfl
  | cons q rest ih =>
      intro h
      obtain ⟨k, v⟩ := q
      rcases h (k, v) (List.mem_cons_self _ _) with ⟨c, hc, hinv⟩
      simp only at hc
      subst hc
      rw [propagateFold, hinv]
      simp only [List.foldl_nil, List.not_mem_nil, not_false_iff, and_true,
        Bool.not_eq_true]
      rw [if_pos (by simp)]
      rw [dpop, if_pos rfl]
      exact ih (fun p hp => h p (List.mem_cons.mpr (Or.inr hp)))

/-- Second-pass key fact: when no catalog label names a live data column,
`_match_cols` with `force=False` resolves nothing at all. -/
theorem matchCols_disjoint_empty (idx : Dict (Option String))
    (cols : List (Dict String)) (dataCols : List String)
    (req : List (String × Option String))
    (hcols : ∀ entry ∈ cols, ∀ l ∈ dvals entry, l ∉ dataCols) :
    matchCols idx cols dataCols req false = .ok [] := by
  rw [matchCols]
  apply propagateFold_pop_all
  intro p hp
  rcases resolveFold_only_direct idx cols dataCols req [] hcols
      (by intro p hp; simp at hp) p hp with ⟨c, hc, hcd⟩
  refine ⟨c, hc, ?_⟩
  rcases buildInvFold_get_cases cols idx [] c with h | ⟨e, he, hmem⟩
  · rw [dgetD, h]; rfl
  · exact absurd hcd (hcols e he c hmem)

/-- C7 amended: a second `format_data` pass is the identity on the dataset
(indeed on the whole state) whenever no label of any catalog entry names a
live dataset column — then `_match_cols` resolves nothing, and the pass
returns at the "No columns to be formatted" warning without touching the
frame; the schema/resolution keys must also avoid the python attribute names
that the special-attributes loop probes.  (When a catalog label DOES alias a
live column, the pass re-applies string casting and can alter data — see the
counterexample, where a null in a declared-string column becomes 'nan'.) -/
theorem c7_second_pass_noop (st : DatNat) (ix : Dict (Option String))
    (attrVal : String → Option Value) (force : Bool) (keep : KeepArg)
    (h1 : st.idx = some ix)
    (h2 : ∀ a ∈ attrNames, dget st.oindexD a = none ∧ dget ix a = none)
    (h3 : ∀ entry ∈ st.cols, ∀ l ∈ dvals entry, l ∉ dfCols st.data) :
    formatData st attrVal force keep = .ok st := by
  rw [formatData_some st ix attrVal force keep h1]
  have hattr : attrNames.foldl (attrStep st.oindexD attrVal (dfRows st.data))
      { data := st.data, columns := ix, idx := ix } =
      { data := st.data, columns := ix, idx := ix } := by
    apply foldl_id_of_steps
    intro a ha
    exact attrStep_id _ _ _ _ a (h2 a ha).1 (h2 a ha).2
  have hmc : matchCols ix st.cols (dfCols st.data) ix false = .ok [] :=
    matchCols_disjoint_empty ix st.cols (dfCols st.data) ix h3
  simp only [formatDataCore]
  rw [hattr]
  simp only []
  rw [hmc]
  simp only [if_true]
  rw [← h1]

/-- Witness for C7 amended at a concrete post-first-run state. -/
theorem c7_second_pass_noop_witness :
    formatData stC7noop (fun _ => none) true .kTrue = .ok stC7noop :=
  c7_second_pass_noop stC7noop [("lat", some "lat_fr"), ("LAT", some "Lat")]
    (fun _ => none) true .kTrue rfl (by decide) (by decide)

set_option maxRecDepth 8192 in
/-- C7 counterexample: a dataset already harmonized to its schema (single
string field `s`, object dtype, canonical order) is NOT left identical by a
second `format_data` run — the pass re-applies `astype(str)` to the resolved
string column, rewriting the null cell to the literal string `'nan'`. -/
theorem c7_counterexample :
    (formatData stC7 (fun _ => none) false .kTrue).map DatNat.data =
      .ok [⟨"s", .dObject, [.vStr "a", .vStr "nan"]⟩] ∧
    [⟨"s", Dtype.dObject, [Value.vStr "a", Value.vStr "nan"]⟩] ≠ stC7.data :=
  ⟨rfl, by decide⟩

/-! ## Lemmas for the translation analysis (C5) -/

theorem mapM_some_length {α β : Type} (f : α → Option β) :
    ∀ (l : List α) (r : List β), l.mapM f = some r → r.length = l.length := by
  intro l
  induction l with
  | nil =>
      intro r h
      have h' : some ([] : List β) = some r := h
      cases h'
      rfl
  | cons a as ih =>
      intro r h
      rw [List.mapM_cons] at h
      rcases ha : f a with _ | b
      · rw [ha] at h; simp at h
      · rw [ha] at h
        rcases hr : as.mapM f with _ | bs
        · rw [hr] at h; simp at h
        · rw [hr] at h
          simp at h
          rw [← h]
          simp [ih bs hr]

theorem mapM_dget_zipWith_dupd (olang : String) :
    ∀ (cols : List (Dict String)) (ts : List String),
    cols.length = ts.length →
    (List.zipWith (fun c t => dupd c olang t) cols ts).mapM
        (fun c => dget c olang) = some ts := by
  intro cols
  induction cols with
  | nil =>
      intro ts h
      cases ts with
      | nil => rfl
      | cons t ts => simp at h
  | cons c cs ih =>
      intro ts h
      cases ts with
      | nil => simp at h
      | cons t ts =>
          rw [List.zipWith_cons_cons, List.mapM_cons]
          rw [dget_dupd_self]
          rw [ih ts (by simpa using h)]
          rfl

/-- C5 counterexample: the output-language label `en` is missing from the
SECOND catalog entry but present in the first; `get_cols` checks only the
first entry's languages, so ZERO translation calls are made (empty call log)
and the second entry stays untranslated — not the claimed exactly-one batched
call. -/
theorem c5_counterexample :
    getCols [[("fr", "a"), ("en", "A")], [("fr", "b")]] (some "fr")
        (some ["b"]) none (some "en") false true (fun s => s ++ "X") none =
      .ok ([[("fr", "a"), ("en", "A")], [("fr", "b")]], [], .one (some "b")) ∧
    dget [("fr", "b")] "en" = none :=
  ⟨rfl, rfl⟩

/-- C5 amended: the trigger is the FIRST catalog entry's language set (or
`force`): when the requested output language is absent from the first entry
(or `force` is set) and differs from the input language, `get_cols` invokes
the translation collaborator exactly once, passing the full list of the
input-language labels of all entries in one batched call, and caches each
returned translation into the corresponding per-column label set; when the
first entry carries the language (without `force`), no call is made even if
other entries lack it (see the counterexample). -/
theorem c5_translate_once_batched (cols₀ : List (Dict String))
    (lg olang : String) (tr : String → String) (labels : List String)
    (force : Bool)
    (hlang : lg ∈ LANGS) (holang : olang ∈ LANGS) (hne : olang ≠ lg)
    (hmiss : olang ∉ (match cols₀.head? with
      | some c => dkeys c
      | none => []) ∨ force = true)
    (hlabels : cols₀.mapM (fun c => dget c lg) = some labels) :
    getCols cols₀ (some lg) none none (some olang) force true tr none =
      .ok (List.zipWith (fun c t => dupd c olang t) cols₀ (labels.map tr),
        [labels], .all (labels.map tr)) := by
  have holangne : olang ≠ "" := by
    intro h; rw [h] at holang; exact absurd holang (by decide)
  have hlen : labels.length = cols₀.length :=
    mapM_some_length _ cols₀ labels hlabels
  have hcond2 : ¬ ((olang ∈ (match cols₀.head? with
      | some c => dkeys c
      | none => []) ∧ force = false) ∨ some olang = some lg) := by
    rintro (⟨hin, hf⟩ | heq)
    · rcases hmiss with hm | hm
      · exact hm hin
      · rw [hm] at hf; cases hf
    · exact hne (Option.some.inj heq)
  have hfinal : (List.zipWith (fun c t => dupd c olang t) cols₀
      (labels.map tr)).mapM (fun c => dget c olang) =
        some (labels.map tr) :=
    mapM_dget_zipWith_dupd olang cols₀ (labels.map tr)
      (by rw [List.length_map, hlen])
  have hprobe : interpretTranslate true tr .taProbe none none =
      .error .typeError := rfl
  have htrans : interpretTranslate true tr (.taList labels)
      (some lg) (some olang) = .ok (labels.map tr, true) := by
    simp only [interpretTranslate]
    rw [if_neg (show ¬ (lg = olang) from fun h => hne h.symm)]
    simp
  rw [getCols]
  simp only []
  rw [if_neg (by simp)]
  simp only [hlang, if_true, pure_bind]
  rw [if_neg holangne]
  simp only [Option.getD_some]
  rw [if_neg (not_not_intro holang)]
  rw [if_pos (Or.inr trivial)]
  rw [if_neg hcond2]
  rw [hprobe]
  simp only []
  rw [hlabels]
  simp only []
  rw [htrans]
  simp only []
  rw [hfinal]
  simp only [List.nil_append, if_true]
  · rfl
  · intro h
    cases h

/-- Witness for `c5_translate_once_batched` on a two-entry French catalog
translated to English: one batched call carrying both labels. -/
theorem c5_translate_once_batched_witness :
    getCols [[("fr", "a")], [("fr", "b")]] (some "fr") none none (some "en")
        false true (fun s => s ++ "T") none =
      .ok ([[("fr", "a"), ("en", "aT")], [("fr", "b"), ("en", "bT")]],
        [["a", "b"]], .all ["aT", "bT"]) :=
  c5_translate_once_batched [[("fr", "a")], [("fr", "b")]] "fr" "en"
    (fun s => s ++ "T") ["a", "b"] false (by decide) (by decide) (by decide)
    (Or.inl (by decide)) rfl

/-! ## Lemmas for the direct-coordinate location strategy (C2) -/

theorem dfCols_dfRename (df : Frame) (o n : String) :
    dfCols (dfRename df o n) =
      (dfCols df).map (fun x => if x = o then n else x) := by
  induction df with
  | nil => rfl
  | cons c df ih =>
      simp only [dfRename, dfCols, List.map_cons] at ih ⊢
      by_cases h : c.name = o
      · simp [h, ih]
      · simp [h, ih]

theorem mem_dfCols_dfRename_target (df : Frame) (o n : String)
    (h : o ∈ dfCols df) : n ∈ dfCols (dfRename df o n) := by
  rw [dfCols_dfRename]
  exact List.mem_map.mpr ⟨o, h, by simp⟩

theorem mem_dfCols_dfRename_of_ne (df : Frame) (o n m : String)
    (hm : m ∈ dfCols df) (hne : m ≠ o) : m ∈ dfCols (dfRename df o n) := by
  rw [dfCols_dfRename]
  exact List.mem_map.mpr ⟨m, hm, by simp [hne]⟩

theorem not_mem_dfCols_dfRename_old (df : Frame) (o n : String)
    (hne : n ≠ o) : o ∉ dfCols (dfRename df o n) := by
  rw [dfCols_dfRename]
  intro h
  rcases List.mem_map.mp h with ⟨x, hx, hxe⟩
  by_cases hxo : x = o
  · rw [if_pos hxo] at hxe; exact hne hxe
  · rw [if_neg hxo] at hxe; exact hxo hxe

theorem not_mem_dfCols_dfRename (df : Frame) (o n m : String)
    (hm : m ∉ dfCols df) (hn : m ≠ n) : m ∉ dfCols (dfRename df o n) := by
  rw [dfCols_dfRename]
  intro h
  rcases List.mem_map.mp h with ⟨x, hx, hxe⟩
  by_cases hxo : x = o
  · rw [if_pos hxo] at hxe; exact hn hxe.symm
  · rw [if_neg hxo] at hxe; rw [hxe] at hx; exact hm hx

theorem mem_dfCols_dfSet_iff (df : Frame) (n m : String) (t : Dtype)
    (vs : List Value) :
    m ∈ dfCols (dfSet df n t vs) ↔ m = n ∨ m ∈ dfCols df := by
  induction df with
  | nil => simp [dfSet, dfCols]
  | cons c df ih =>
      rw [dfSet]
      by_cases h : c.name = n
      · rw [if_pos h, dfCols_cons, dfCols_cons, h]
        simp only [List.mem_cons, ih]
        constructor
        · rintro (h1 | h1)
          · exact Or.inl h1
          · exact Or.inr (Or.inr h1)
        · rintro (h1 | h1 | h1)
          · exact Or.inl h1
          · rw [← h] at h1 ⊢; exact Or.inl h1
          · exact Or.inr h1
      · rw [if_neg h, dfCols_cons, dfCols_cons]
        simp only [List.mem_cons, ih]
        tauto

theorem dfCols_castLatLon (df : Frame) (a b : String) (t u : Option String) :
    dfCols (castLatLon df a b t u) = dfCols df := by
  rw [castLatLon.eq_def]
  rcases h1 : dfGet? df a with _ | c1
  · rfl
  · rcases h2 : dfGet? df b with _ | c2
    · rfl
    · simp only []
      rcases h3 : astypeVals (match t with | none => none | some s => name2pyt s)
          c1.values with _ | r1
      · rfl
      · rcases h4 : astypeVals (match u with | none => none | some s => name2pyt s)
            c2.values with _ | r2
        · rfl
        · simp only []
          have hma : a ∈ dfCols df := dfGet?_mem df a c1 h1
          have hmb : b ∈ dfCols df := dfGet?_mem df b c2 h2
          rw [dfCols_dfSet_of_mem, dfCols_dfSet_of_mem]
          · exact hma
          · rw [dfCols_dfSet_of_mem _ _ _ _ hma]
            exact hmb

theorem dfGet?_castLatLon_ne (df : Frame) (a b m : String) (t u : Option String)
    (ha : m ≠ a) (hb : m ≠ b) :
    dfGet? (castLatLon df a b t u) m = dfGet? df m := by
  rw [castLatLon.eq_def]
  rcases h1 : dfGet? df a with _ | c1
  · rfl
  · rcases h2 : dfGet? df b with _ | c2
    · rfl
    · simp only []
      rcases h3 : astypeVals (match t with | none => none | some s => name2pyt s)
          c1.values with _ | r1
      · rfl
      · rcases h4 : astypeVals (match u with | none => none | some s => name2pyt s)
            c2.values with _ | r2
        · rfl
        · simp only []
          rw [dfGet?_dfSet_ne _ _ _ _ _ (fun h => hb h.symm)]
          rw [dfGet?_dfSet_ne _ _ _ _ _ (fun h => ha h.symm)]

theorem locateTail_none_snd (st : DatNat) (oindex : Dict IndexEntry)
    (olat olon : String) (otlat otlon : Option String) (rows : ℕ) :
    (locateTail st oindex olat olon otlat otlon none rows).2 = none := rfl

theorem locateTail_none_data (st : DatNat) (oindex : Dict IndexEntry)
    (olat olon : String) (otlat otlon : Option String) (rows : ℕ) :
    (locateTail st oindex olat olon otlat otlon none rows).1.data =
      castLatLon (dfSetN st.data (geoQualName oindex) .dInt64 (.vInt 1) rows)
        olat olon otlat otlon := rfl

theorem locateTail_none_geocodeTried (st : DatNat) (oindex : Dict IndexEntry)
    (olat olon : String) (otlat otlon : Option String) (rows : ℕ) :
    (locateTail st oindex olat olon otlat otlon none rows).1.geocodeTried =
      st.geocodeTried := rfl

/-- Reduction of `locate_data` to the shared tail when distinct nominated
lat/lon columns both exist in the dataset (strategy 2, base.py 812-826 guard
fails / 817-826 fires). -/
theorem locateData_strategy2 (st : DatNat) (ix : Dict (Option String))
    (la lo : String) (orderArg : Option String)
    (placeArg : Option (List String))
    (hix : st.idx = some ix)
    (hla : dget ix "lat" = some (some la))
    (hlo : dget ix "lon" = some (some lo))
    (hnell : la ≠ lo)
    (hmla : la ∈ dfCols st.data)
    (hmlo : lo ∈ dfCols st.data)
    (hproj : st.configProj = none) :
    locateData st .llNone orderArg placeArg none =
      locateTail
        { (if st.geoAvail then { st with gcName := some "Nominatim" } else st)
            with
          data :=
            (if lo ≠ (latlonNamesTypes st.oindexD).2.1 then
              dfRename
                (if la ≠ (latlonNamesTypes st.oindexD).1 then
                  dfRename st.data la (latlonNamesTypes st.oindexD).1
                else st.data)
                lo (latlonNamesTypes st.oindexD).2.1
            else
              (if la ≠ (latlonNamesTypes st.oindexD).1 then
                dfRename st.data la (latlonNamesTypes st.oindexD).1
              else st.data)) }
        st.oindexD (latlonNamesTypes st.oindexD).1
        (latlonNamesTypes st.oindexD).2.1
        (latlonNamesTypes st.oindexD).2.2.1
        (latlonNamesTypes st.oindexD).2.2.2
        none (dfRows st.data) := by
  have hidx' :
      (if st.geoAvail then { st with gcName := some "Nominatim" } else st).idx
        = some ix := by
    rcases hg : st.geoAvail <;> simp [hg, hix]
  have hdata' :
      (if st.geoAvail then { st with gcName := some "Nominatim" } else st).data
        = st.data := by
    rcases hg : st.geoAvail <;> simp [hg]
  rw [locateData]
  simp only []
  rw [hidx']
  simp only []
  rw [hla, hlo]
  simp only []
  rw [locateData.locateBranches]
  simp only [hdata']
  rw [if_neg (fun h => hnell h.1)]
  rw [if_pos ⟨hmla, hmlo⟩]
  rw [hidx']
  rw [hproj]

/-- Membership in the double-rename of strategy 2: both canonical names are
present afterwards. -/
theorem c2mem_renames (df : Frame) (la lo olat olon : String)
    (hmla : la ∈ dfCols df) (hmlo : lo ∈ dfCols df)
    (hnell : la ≠ lo) (holo : olat ≠ lo) :
    olat ∈ dfCols (if lo ≠ olon then
        dfRename (if la ≠ olat then dfRename df la olat else df) lo olon
      else (if la ≠ olat then dfRename df la olat else df)) ∧
    olon ∈ dfCols (if lo ≠ olon then
        dfRename (if la ≠ olat then dfRename df la olat else df) lo olon
      else (if la ≠ olat then dfRename df la olat else df)) := by
  have h1 : olat ∈ dfCols (if la ≠ olat then dfRename df la olat else df) := by
    by_cases ha : la ≠ olat
    · rw [if_pos ha]; exact mem_dfCols_dfRename_target _ _ _ hmla
    · rw [if_neg ha]
      push_neg at ha
      exact ha ▸ hmla
  have h2 : lo ∈ dfCols (if la ≠ olat then dfRename df la olat else df) := by
    by_cases ha : la ≠ olat
    · rw [if_pos ha]
      exact mem_dfCols_dfRename_of_ne _ _ _ _ hmlo (fun hh => hnell hh.symm)
    · rw [if_neg ha]; exact hmlo
  constructor
  · by_cases hb : lo ≠ olon
    · rw [if_pos hb]
      exact mem_dfCols_dfRename_of_ne _ _ _ _ h1 holo
    · rw [if_neg hb]; exact h1
  · by_cases hb : lo ≠ olon
    · rw [if_pos hb]
      exact mem_dfCols_dfRename_target _ _ _ h2
    · rw [if_neg hb]
      push_neg at hb
      exact hb ▸ h2

/-- The nominated lat column's old name is gone after the strategy-2 renames
whenever it differs from both canonical names. -/
theorem c2notmem_renames (df : Frame) (la lo olat olon : String)
    (hne1 : la ≠ olat) (hne2 : la ≠ olon) :
    la ∉ dfCols (if lo ≠ olon then
        dfRename (if la ≠ olat then dfRename df la olat else df) lo olon
      else (if la ≠ olat then dfRename df la olat else df)) := by
  rw [if_pos hne1]
  have h1 : la ∉ dfCols (dfRename df la olat) :=
    not_mem_dfCols_dfRename_old df la olat (fun hh => hne1 hh.symm)
  by_cases hb : lo ≠ olon
  · rw [if_pos hb]
    exact not_mem_dfCols_dfRename _ lo olon la h1 hne2
  · rw [if_neg hb]; exact h1

/-- C2: when distinct physical columns are already nominated for the `lat`
and `lon` field keys and both exist in the dataset, `locate_data` (with no
reprojection configured) finishes without error via strategy 2: the geocoding
machinery is never entered (`geocodeTried` unchanged, whatever place
arguments are supplied), the canonical output names declared by the schema
are present in the result, the quality column carries the literal `1` for
every row, and the nominated lat column's old name is gone (renamed) whenever
it differs from the canonical names. -/
theorem c2_direct_columns_strategy (st : DatNat) (ix : Dict (Option String))
    (la lo : String) (orderArg : Option String)
    (placeArg : Option (List String))
    (hix : st.idx = some ix)
    (hla : dget ix "lat" = some (some la))
    (hlo : dget ix "lon" = some (some lo))
    (hnell : la ≠ lo)
    (hmla : la ∈ dfCols st.data)
    (hmlo : lo ∈ dfCols st.data)
    (hproj : st.configProj = none)
    (holo : (latlonNamesTypes st.oindexD).1 ≠ lo)
    (hq1 : geoQualName st.oindexD ≠ (latlonNamesTypes st.oindexD).1)
    (hq2 : geoQualName st.oindexD ≠ (latlonNamesTypes st.oindexD).2.1) :
    (locateData st .llNone orderArg placeArg none).2 = none ∧
    (locateData st .llNone orderArg placeArg none).1.geocodeTried =
      st.geocodeTried ∧
    ((latlonNamesTypes st.oindexD).1 ∈
        dfCols (locateData st .llNone orderArg placeArg none).1.data ∧
      (latlonNamesTypes st.oindexD).2.1 ∈
        dfCols (locateData st .llNone orderArg placeArg none).1.data) ∧
    dfGet? (locateData st .llNone orderArg placeArg none).1.data
        (geoQualName st.oindexD) =
      some ⟨geoQualName st.oindexD, .dInt64,
        List.replicate (dfRows st.data) (.vInt 1)⟩ ∧
    (la ≠ (latlonNamesTypes st.oindexD).1 →
      la ≠ (latlonNamesTypes st.oindexD).2.1 →
      la ≠ geoQualName st.oindexD →
      la ∉ dfCols (locateData st .llNone orderArg placeArg none).1.data) := by
  rw [locateData_strategy2 st ix la lo orderArg placeArg hix hla hlo hnell
    hmla hmlo hproj]
  rw [locateTail_none_snd, locateTail_none_data, locateTail_none_geocodeTried]
  simp only []
  refine ⟨trivial, ?_, ⟨?_, ?_⟩, ?_, ?_⟩
  · rcases hg : st.geoAvail <;> simp [hg]
  · rw [dfCols_castLatLon, dfSetN]
    exact mem_dfCols_dfSet _ _ _ _ _
      (c2mem_renames st.data la lo _ _ hmla hmlo hnell holo).1
  · rw [dfCols_castLatLon, dfSetN]
    exact mem_dfCols_dfSet _ _ _ _ _
      (c2mem_renames st.data la lo _ _ hmla hmlo hnell holo).2
  · rw [dfGet?_castLatLon_ne _ _ _ _ _ _ hq1 hq2, dfSetN, dfGet?_dfSet_self]
  · intro hne1 hne2 hne3
    rw [dfCols_castLatLon, dfSetN, mem_dfCols_dfSet_iff]
    rintro (h | h)
    · exact hne3 h
    · exact c2notmem_renames st.data la lo _ _ hne1 hne2 h

/-- Witness for `c2_direct_columns_strategy` on a dataset with nominated
columns `LA`/`LO` and a live address column. -/
theorem c2_direct_columns_strategy_witness :
    (locateData stC2 .llNone none none none).2 = none ∧
    (locateData stC2 .llNone none none none).1.geocodeTried =
      stC2.geocodeTried ∧
    ("olat" ∈ dfCols (locateData stC2 .llNone none none none).1.data ∧
      "olon" ∈ dfCols (locateData stC2 .llNone none none none).1.data) ∧
    dfGet? (locateData stC2 .llNone none none none).1.data "geo_qual" =
      some ⟨"geo_qual", .dInt64,
        List.replicate (dfRows stC2.data) (.vInt 1)⟩ ∧
    ("LA" ≠ "olat" → "LA" ≠ "olon" → "LA" ≠ "geo_qual" →
      "LA" ∉ dfCols (locateData stC2 .llNone none none none).1.data) :=
  c2_direct_columns_strategy stC2 [("lat", some "LA"), ("lon", some "LO")]
    "LA" "LO" none none rfl rfl rfl (by decide) (by decide) (by decide) rfl
    (by decide) (by decide) (by decide)

/-! ## Lemmas for the split-coordinate strategy (C3) -/

/-- Successful final cast: both columns present and both `astype` calls
succeed, so both columns are replaced. -/
theorem castLatLon_eq_of (df : Frame) (a b : String) (t u : Option String)
    (c1 c2 : Col) (r1 r2 : Dtype × List Value)
    (h1 : dfGet? df a = some c1) (h2 : dfGet? df b = some c2)
    (h3 : astypeVals (match t with | none => none | some s => name2pyt s)
      c1.values = some r1)
    (h4 : astypeVals (match u with | none => none | some s => name2pyt s)
      c2.values = some r2) :
    castLatLon df a b t u = dfSet (dfSet df a r1.1 r1.2) b r2.1 r2.2 := by
  rw [castLatLon.eq_def, h1, h2]
  simp only []
  rw [h3, h4]

/-- Reduction of `locate_data` to the shared tail when one combined
coordinate column is nominated and some row splits (strategy 1,
base.py 812-826). -/
theorem locateData_strategy1 (st : DatNat) (c : String) (col : Col)
    (hcol : dfGet? st.data c = some col)
    (hproj : st.configProj = none)
    (hsplit : splitWide (col.values.map splitCell) = true) :
    locateData st (.llOne c) (some "lL") none none =
      locateTail
        { (if st.geoAvail then { st with gcName := some "Nominatim" } else st)
            with
          data := dfSet
            (dfSet st.data (latlonNamesTypes st.oindexD).1 .dObject
              (((col.values.map splitCell).map splitHalves).map Prod.fst))
            (latlonNamesTypes st.oindexD).2.1 .dObject
            (((col.values.map splitCell).map splitHalves).map Prod.snd) }
        st.oindexD (latlonNamesTypes st.oindexD).1
        (latlonNamesTypes st.oindexD).2.1
        (latlonNamesTypes st.oindexD).2.2.1
        (latlonNamesTypes st.oindexD).2.2.2
        none (dfRows st.data) := by
  have hmemc : c ∈ dfCols st.data := dfGet?_mem _ _ _ hcol
  have hdata' :
      (if st.geoAvail then { st with gcName := some "Nominatim" } else st).data
        = st.data := by
    rcases hg : st.geoAvail <;> simp [hg]
  rw [locateData]
  simp only []
  rw [locateData.locateBranches]
  simp only [hdata', Option.getD_some]
  rw [if_pos (show True ∧ c ∈ dfCols st.data from ⟨trivial, hmemc⟩)]
  rw [if_pos (show True ∨ ("lL" : String) = "Ll" from Or.inl trivial)]
  simp only [if_true]
  rw [hcol]
  simp only []
  rw [if_pos hsplit]
  rw [hproj]

/-- With a nominated combined column and an unknown `order` keyword,
`locate_data` raises the configuration `IOError` before touching the frame. -/
theorem locateData_strategy1_badorder (st : DatNat) (c : String) (col : Col)
    (order : String)
    (hcol : dfGet? st.data c = some col)
    (h1 : order ≠ "lL") (h2 : order ≠ "Ll") :
    locateData st (.llOne c) (some order) none none =
      ((if st.geoAvail then { st with gcName := some "Nominatim" } else st),
        some .ioUnknownOrder) := by
  have hmemc : c ∈ dfCols st.data := dfGet?_mem _ _ _ hcol
  have hdata' :
      (if st.geoAvail then { st with gcName := some "Nominatim" } else st).data
        = st.data := by
    rcases hg : st.geoAvail <;> simp [hg]
  rw [locateData]
  rw [locateData.locateBranches]
  simp only [hdata', Option.getD_some]
  rw [if_pos (show True ∧ c ∈ dfCols st.data from ⟨trivial, hmemc⟩)]
  rw [if_neg (show ¬ (order = "lL" ∨ order = "Ll") from by
    rintro (h | h)
    · exact h1 h
    · exact h2 h)]

/-- C3: with the same physical column nominated for both lat and lon keys
and `order='lL'`, `locate_data` splits each cell on its first whitespace run
into two columns named by the TargetSchema's declared output names
(lat-then-lon), casts them per the declared types, and sets `geo_qual` to 1
for every row; for any `order` other than `'lL'`/`'Ll'` it raises the
configuration error with the frame untouched. -/
theorem c3_split_coordinate (st : DatNat) (c : String) (col : Col)
    (t1 t2 : Dtype) (w1 w2 : List Value)
    (hcol : dfGet? st.data c = some col)
    (hproj : st.configProj = none)
    (hsplit : splitWide (col.values.map splitCell) = true)
    (holl : (latlonNamesTypes st.oindexD).1 ≠ (latlonNamesTypes st.oindexD).2.1)
    (hq1 : geoQualName st.oindexD ≠ (latlonNamesTypes st.oindexD).1)
    (hq2 : geoQualName st.oindexD ≠ (latlonNamesTypes st.oindexD).2.1)
    (hc1 : astypeVals
      (match (latlonNamesTypes st.oindexD).2.2.1 with
        | none => none | some s => name2pyt s)
      (((col.values.map splitCell).map splitHalves).map Prod.fst) =
        some (t1, w1))
    (hc2 : astypeVals
      (match (latlonNamesTypes st.oindexD).2.2.2 with
        | none => none | some s => name2pyt s)
      (((col.values.map splitCell).map splitHalves).map Prod.snd) =
        some (t2, w2)) :
    (locateData st (.llOne c) (some "lL") none none).2 = none ∧
    dfGet? (locateData st (.llOne c) (some "lL") none none).1.data
        (latlonNamesTypes st.oindexD).1 =
      some ⟨(latlonNamesTypes st.oindexD).1, t1, w1⟩ ∧
    dfGet? (locateData st (.llOne c) (some "lL") none none).1.data
        (latlonNamesTypes st.oindexD).2.1 =
      some ⟨(latlonNamesTypes st.oindexD).2.1, t2, w2⟩ ∧
    dfGet? (locateData st (.llOne c) (some "lL") none none).1.data
        (geoQualName st.oindexD) =
      some ⟨geoQualName st.oindexD, .dInt64,
        List.replicate (dfRows st.data) (.vInt 1)⟩ ∧
    (∀ order : String, order ≠ "lL" → order ≠ "Ll" →
      (locateData st (.llOne c) (some order) none none).1.data = st.data ∧
      (locateData st (.llOne c) (some order) none none).2 =
        some .ioUnknownOrder) := by
  rw [locateData_strategy1 st c col hcol hproj hsplit]
  rw [locateTail_none_snd, locateTail_none_data]
  simp only []
  have hga : dfGet? (dfSetN
      (dfSet
        (dfSet st.data (latlonNamesTypes st.oindexD).1 .dObject
          (((col.values.map splitCell).map splitHalves).map Prod.fst))
        (latlonNamesTypes st.oindexD).2.1 .dObject
        (((col.values.map splitCell).map splitHalves).map Prod.snd))
      (geoQualName st.oindexD) .dInt64 (.vInt 1) (dfRows st.data))
      (latlonNamesTypes st.oindexD).1 =
      some ⟨(latlonNamesTypes st.oindexD).1, .dObject,
        (((col.values.map splitCell).map splitHalves).map Prod.fst)⟩ := by
    rw [dfSetN, dfGet?_dfSet_ne _ _ _ _ _ hq1,
      dfGet?_dfSet_ne _ _ _ _ _ (fun h => holl h.symm), dfGet?_dfSet_self]
  have hgb : dfGet? (dfSetN
      (dfSet
        (dfSet st.data (latlonNamesTypes st.oindexD).1 .dObject
          (((col.values.map splitCell).map splitHalves).map Prod.fst))
        (latlonNamesTypes st.oindexD).2.1 .dObject
        (((col.values.map splitCell).map splitHalves).map Prod.snd))
      (geoQualName st.oindexD) .dInt64 (.vInt 1) (dfRows st.data))
      (latlonNamesTypes st.oindexD).2.1 =
      some ⟨(latlonNamesTypes st.oindexD).2.1, .dObject,
        (((col.values.map splitCell).map splitHalves).map Prod.snd)⟩ := by
    rw [dfSetN, dfGet?_dfSet_ne _ _ _ _ _ hq2, dfGet?_dfSet_self]
  rw [castLatLon_eq_of _ _ _ _ _ _ _ (t1, w1) (t2, w2) hga hgb hc1 hc2]
  refine ⟨trivial, ?_, ?_, ?_, ?_⟩
  · rw [dfGet?_dfSet_ne _ _ _ _ _ (fun h => holl h.symm), dfGet?_dfSet_self]
  · rw [dfGet?_dfSet_self]
  · rw [dfGet?_dfSet_ne _ _ _ _ _ (fun h => hq2 h.symm),
      dfGet?_dfSet_ne _ _ _ _ _ (fun h => hq1 h.symm), dfSetN,
      dfGet?_dfSet_self]
  · intro order h1 h2
    rw [locateData_strategy1_badorder st c col order hcol h1 h2]
    refine ⟨?_, rfl⟩
    rcases hg : st.geoAvail <;> simp [hg]

/-- Witness for `c3_split_coordinate`: the row `"48.85 2.35"` yields
lat `48.85`, lon `2.35` (float64) and `geo_qual = 1`. -/
theorem c3_split_coordinate_witness :
    ((locateData stC3 (.llOne "coord") (some "lL") none none).2 = none ∧
    dfGet? (locateData stC3 (.llOne "coord") (some "lL") none none).1.data
        "lat" = some ⟨"lat", .dFloat64, [.vNum ((Nat.cast (48 : ℕ) : ℚ) +
          (Nat.cast (85 : ℕ) : ℚ) / ((10 : ℚ) ^ (2 : ℕ)))]⟩ ∧
    dfGet? (locateData stC3 (.llOne "coord") (some "lL") none none).1.data
        "lon" = some ⟨"lon", .dFloat64, [.vNum ((Nat.cast (2 : ℕ) : ℚ) +
          (Nat.cast (35 : ℕ) : ℚ) / ((10 : ℚ) ^ (2 : ℕ)))]⟩ ∧
    dfGet? (locateData stC3 (.llOne "coord") (some "lL") none none).1.data
        "geo_qual" = some ⟨"geo_qual", .dInt64,
          List.replicate (dfRows stC3.data) (.vInt 1)⟩ ∧
    (∀ order : String, order ≠ "lL" → order ≠ "Ll" →
      (locateData stC3 (.llOne "coord") (some order) none none).1.data =
        stC3.data ∧
      (locateData stC3 (.llOne "coord") (some order) none none).2 =
        some .ioUnknownOrder)) ∧
    ((Nat.cast (48 : ℕ) : ℚ) + (Nat.cast (85 : ℕ) : ℚ) / ((10 : ℚ) ^ (2 : ℕ))
        = 48.85 ∧
      (Nat.cast (2 : ℕ) : ℚ) + (Nat.cast (35 : ℕ) : ℚ) / ((10 : ℚ) ^ (2 : ℕ))
        = 2.35) :=
  ⟨c3_split_coordinate stC3 "coord" ⟨"coord", .dObject, [.vStr "48.85 2.35"]⟩
    .dFloat64 .dFloat64
    [.vNum ((Nat.cast (48 : ℕ) : ℚ) +
      (Nat.cast (85 : ℕ) : ℚ) / ((10 : ℚ) ^ (2 : ℕ)))]
    [.vNum ((Nat.cast (2 : ℕ) : ℚ) +
      (Nat.cast (35 : ℕ) : ℚ) / ((10 : ℚ) ^ (2 : ℕ)))]
    rfl rfl (by decide) (by decide) (by decide) (by decide) rfl rfl,
   by constructor <;> norm_num⟩

/-! ## Lemmas for the place-column strategy (C8) -/

/-- Reduction of `locate_data` to the place branch when the nominated lat
column is absent from the dataset (strategies 1 and 2 both fail their
guards). -/
theorem locateData_strategy3 (st : DatNat) (ix : Dict (Option String))
    (la lo : String) (plc : List String)
    (hix : st.idx = some ix)
    (hla : dget ix "lat" = some (some la))
    (hlo : dget ix "lon" = some (some lo))
    (hnotla : la ∉ dfCols st.data)
    (hpn : st.configPlaceName = none)
    (hplcne : plc ≠ []) :
    locateData st .llNone none (some plc) none =
      locateData.locatePlace
        (if st.geoAvail then { st with gcName := some "Nominatim" } else st)
        st.oindexD plc "place" (dfRows st.data) := by
  have hidx' :
      (if st.geoAvail then { st with gcName := some "Nominatim" } else st).idx
        = some ix := by
    rcases hg : st.geoAvail <;> simp [hg, hix]
  have hdata' :
      (if st.geoAvail then { st with gcName := some "Nominatim" } else st).data
        = st.data := by
    rcases hg : st.geoAvail <;> simp [hg]
  rw [locateData]
  simp only []
  rw [hidx']
  simp only []
  rw [hla, hlo]
  simp only []
  rw [locateData.locateBranches]
  simp only [hdata']
  rw [if_neg (fun h => hnotla h.2)]
  rw [if_neg (fun h => hnotla h.1)]
  rw [hpn]
  simp only [placeListOf]
  rw [if_neg hplcne]

/-- The place branch on a state with no live `place` column: a successful
resolution either yields no live component column (hard failure,
`NoLocationSource`, frame untouched) or builds the `place` column by joining
the resolved component columns row-wise before the geocoding apply raises. -/
theorem locatePlace_build (S : DatNat) (oindex : Dict IndexEntry)
    (ix : Dict (Option String)) (plc : List String) (mplace : Dict ResVal)
    (rows : ℕ)
    (hix : S.idx = some ix)
    (hop : "place" ∉ dfCols S.data)
    (hmatch : matchCols ix S.cols (dfCols S.data)
      ((dictOfSelf plc).map (fun p => (p.1, some p.2))) true = .ok mplace) :
    (plc.filterMap (fun p =>
        match dget mplace p with
        | some (.rs c) => if c ∈ dfCols S.data then some c else none
        | _ => none) = [] →
      locateData.locatePlace S oindex plc "place" rows =
        (S, some .noLocationSource)) ∧
    (∀ pcs, plc.filterMap (fun p =>
        match dget mplace p with
        | some (.rs c) => if c ∈ dfCols S.data then some c else none
        | _ => none) = pcs → pcs ≠ [] →
      dfGet? (locateData.locatePlace S oindex plc "place" rows).1.data
          "place" =
        some ⟨"place", .dObject, joinRows S.data pcs rows⟩ ∧
      (locateData.locatePlace S oindex plc "place" rows).1.geocodeTried =
        true ∧
      (S.geoAvail = true → rows ≠ 0 →
        (locateData.locatePlace S oindex plc "place" rows).2 =
          some .ioNoLocateQuick)) := by
  constructor
  · intro h
    rw [locateData.locatePlace]
    rw [if_neg hop, hix]
    simp only []
    rw [hmatch]
    simp only []
    rw [h]
    rw [if_pos rfl]
  · intro pcs hpcs hne
    rw [locateData.locatePlace]
    rw [if_neg hop, hix]
    simp only []
    rw [hmatch]
    simp only []
    rw [hpcs]
    rw [if_neg hne]
    simp only []
    refine ⟨?_, ?_, ?_⟩
    · rcases hg : S.geoAvail <;>
        by_cases hr : rows = 0 <;>
        simp [hg, hr, dfGet?_dfSet_self]
    · rcases hg : S.geoAvail <;>
        by_cases hr : rows = 0 <;>
        simp [hg, hr]
    · intro hga hrows
      simp [hga, hrows]

/-- C8: when neither a combined coordinate column nor separate lat/lon
columns can be found, `locate_data` resolves the configured place-component
fields and either (no live component column) fails hard with
`NoLocationSource` leaving the frame untouched, or builds the `place` column
whose every row joins the resolved component columns with `', '`, blank
components skipped (`TextProcess.join` semantics inside `joinRows`); the
geocoding attempt that follows marks the state and aborts in the collaborator
(`locate_quick` does not exist). -/
theorem c8_place_column (st : DatNat) (ix : Dict (Option String))
    (la lo : String) (plc : List String) (mplace : Dict ResVal)
    (hix : st.idx = some ix)
    (hla : dget ix "lat" = some (some la))
    (hlo : dget ix "lon" = some (some lo))
    (hnotla : la ∉ dfCols st.data)
    (hpn : st.configPlaceName = none)
    (hplcne : plc ≠ [])
    (hop : "place" ∉ dfCols st.data)
    (hmatch : matchCols ix st.cols (dfCols st.data)
      ((dictOfSelf plc).map (fun p => (p.1, some p.2))) true = .ok mplace) :
    (plc.filterMap (fun p =>
        match dget mplace p with
        | some (.rs c) => if c ∈ dfCols st.data then some c else none
        | _ => none) = [] →
      (locateData st .llNone none (some plc) none).1.data = st.data ∧
      (locateData st .llNone none (some plc) none).2 =
        some .noLocationSource) ∧
    (∀ pcs, plc.filterMap (fun p =>
        match dget mplace p with
        | some (.rs c) => if c ∈ dfCols st.data then some c else none
        | _ => none) = pcs → pcs ≠ [] →
      dfGet? (locateData st .llNone none (some plc) none).1.data "place" =
        some ⟨"place", .dObject, joinRows st.data pcs (dfRows st.data)⟩ ∧
      (locateData st .llNone none (some plc) none).1.geocodeTried = true ∧
      (st.geoAvail = true → dfRows st.data ≠ 0 →
        (locateData st .llNone none (some plc) none).2 =
          some .ioNoLocateQuick)) := by
  rw [locateData_strategy3 st ix la lo plc hix hla hlo hnotla hpn hplcne]
  have hidx' :
      (if st.geoAvail then { st with gcName := some "Nominatim" } else st).idx
        = some ix := by
    rcases hg : st.geoAvail <;> simp [hg, hix]
  have hdata' :
      (if st.geoAvail then { st with gcName := some "Nominatim" } else st).data
        = st.data := by
    rcases hg : st.geoAvail <;> simp [hg]
  have hcols' :
      (if st.geoAvail then { st with gcName := some "Nominatim" } else st).cols
        = st.cols := by
    rcases hg : st.geoAvail <;> simp [hg]
  have hga' :
      DatNat.geoAvail
        (if st.geoAvail then { st with gcName := some "Nominatim" } else st) =
          st.geoAvail := by
    rcases hg : st.geoAvail <;> simp [hg]
  have hmain := locatePlace_build
    (if st.geoAvail then { st with gcName := some "Nominatim" } else st)
    st.oindexD ix plc mplace (dfRows st.data) hidx'
    (by rw [hdata']; exact hop) (by rw [hdata', hcols']; exact hmatch)
  rw [hdata', hga'] at hmain
  constructor
  · intro h
    rw [hmain.1 h]
    exact ⟨hdata', rfl⟩
  · exact hmain.2

/-- Witness for `c8_place_column`: components `street`/`number`/`city`/
`country` resolve to `Rue`/`Ville`/`Pays` (`number` has no column and is
dropped), and the built place row joins to `"5 av. X, Paris"` — the blank
country value is skipped by the join. -/
theorem c8_place_column_witness :
    ((plcC8.filterMap (fun p =>
        match dget mplaceC8 p with
        | some (.rs c) => if c ∈ dfCols stC8.data then some c else none
        | _ => none) = [] →
      (locateData stC8 .llNone none (some plcC8) none).1.data = stC8.data ∧
      (locateData stC8 .llNone none (some plcC8) none).2 =
        some .noLocationSource) ∧
    (∀ pcs, plcC8.filterMap (fun p =>
        match dget mplaceC8 p with
        | some (.rs c) => if c ∈ dfCols stC8.data then some c else none
        | _ => none) = pcs → pcs ≠ [] →
      dfGet? (locateData stC8 .llNone none (some plcC8) none).1.data
          "place" =
        some ⟨"place", .dObject, joinRows stC8.data pcs (dfRows stC8.data)⟩ ∧
      (locateData stC8 .llNone none (some plcC8) none).1.geocodeTried =
        true ∧
      (stC8.geoAvail = true → dfRows stC8.data ≠ 0 →
        (locateData stC8 .llNone none (some plcC8) none).2 =
          some .ioNoLocateQuick))) ∧
    plcC8.filterMap (fun p =>
        match dget mplaceC8 p with
        | some (.rs c) => if c ∈ dfCols stC8.data then some c else none
        | _ => none) = ["Rue", "Ville", "Pays"] ∧
    joinRows stC8.data ["Rue", "Ville", "Pays"] (dfRows stC8.data) =
      [.vStr "5 av. X, Paris"] :=
  ⟨c8_place_column stC8 [("lat", some "LA"), ("lon", some "LO"),
      ("street", some "Rue"), ("city", some "Ville"),
      ("country", some "Pays")] "LA" "LO" plcC8 mplaceC8 rfl rfl rfl
      (by decide) rfl (by decide) (by decide) rfl,
   rfl, rfl⟩
